import Mathlib

/- Verification development for the B-tree storage engine: serialization codec
   (serialize.c), node layout (node.c, btree.c), B-tree insert and split
   (btree.c), cursor search and scan (cursor.c), and the pager (pager.c).
   The header constants.h is not part of the sources; the layout constants and
   the record, cursor, table and pager structures are modelled from the spec. -/

/-- Modelled from the spec: the fixed page size from the missing constants.h
    (spec section 3 names 4096 bytes as the page size). -/
def PAGE_SIZE : Nat := 4096

/-- Modelled from the spec: the hard maximum page count of the pager cache. -/
def TABLE_MAX_PAGES : Nat := 100

/-- Modelled from the spec: width of the id field of the record layout. -/
def ID_SIZE : Nat := 4

/-- Modelled from the spec: fixed width of the username field. -/
def USERNAME_SIZE : Nat := 32

/-- Modelled from the spec: fixed width of the email field. -/
def EMAIL_SIZE : Nat := 255

/-- Modelled from the spec: record layout is id, then username, then email. -/
def ID_OFFSET : Nat := 0

def USERNAME_OFFSET : Nat := ID_OFFSET + ID_SIZE

def EMAIL_OFFSET : Nat := USERNAME_OFFSET + USERNAME_SIZE

def ROW_SIZE : Nat := ID_SIZE + USERNAME_SIZE + EMAIL_SIZE

/-- Modelled from the spec: leaf cell layout is a four byte key followed by the
    fixed width serialized record. -/
def LEAF_NODE_KEY_SIZE : Nat := 4

def LEAF_NODE_VALUE_SIZE : Nat := ROW_SIZE

def LEAF_NODE_CELL_SIZE : Nat := LEAF_NODE_KEY_SIZE + LEAF_NODE_VALUE_SIZE

/-- Modelled from the spec: leaf header is type tag, root flag, cell count. -/
def LEAF_NODE_HEADER_SIZE : Nat := 6

def LEAF_NODE_SPACE_FOR_CELLS : Nat := PAGE_SIZE - LEAF_NODE_HEADER_SIZE

/-- Modelled from the spec: maximum cell count is usable page bytes divided by
    the cell size. -/
def LEAF_NODE_MAX_CELLS : Nat := LEAF_NODE_SPACE_FOR_CELLS / LEAF_NODE_CELL_SIZE

/-- Modelled from the spec: the fixed split partition of the max plus one
    cells, right half rounded up, left half the rest. -/
def LEAF_NODE_RIGHT_SPLIT_COUNT : Nat := (LEAF_NODE_MAX_CELLS + 1) / 2

def LEAF_NODE_LEFT_SPLIT_COUNT : Nat :=
  LEAF_NODE_MAX_CELLS + 1 - LEAF_NODE_RIGHT_SPLIT_COUNT

/-- Little-endian byte image of a 32-bit unsigned value, as laid down by the
    four byte integer stores of the source. -/
def u32Bytes (k : Nat) : List Nat :=
  [k % 256, k / 256 % 256, k / 65536 % 256, k / 16777216 % 256]

/-- Little-endian decoding of the first four bytes of a buffer, as read by the
    four byte integer loads of the source. -/
def bytesToU32 : List Nat → Nat
  | b0 :: b1 :: b2 :: b3 :: _ => b0 + 256 * b1 + 65536 * b2 + 16777216 * b3
  | [b0, b1, b2] => b0 + 256 * b1 + 65536 * b2
  | [b0, b1] => b0 + 256 * b1
  | [b0] => b0
  | [] => 0

/-- Modelled from the spec: the logical record of constants.h. The username
    and email fields model the string content of the fixed C char arrays, the
    bytes before the terminating zero. -/
structure Row where
  id : Nat
  username : List Nat
  email : List Nat
deriving DecidableEq

/-- The strncpy copy into a field of width n: at most n bytes of the string
    are copied and the remainder of the field is padded with zero bytes. -/
def strncpyBuf (s : List Nat) (n : Nat) : List Nat :=
  s.take n ++ List.replicate (n - s.length) 0

/-- serialize_row from serialize.c: id bytes at ID_OFFSET, then the username
    field, then the email field, each padded or truncated to its fixed width.
    The three regions are contiguous and fill the whole ROW_SIZE buffer. -/
def serialize_row (source : Row) : List Nat :=
  u32Bytes source.id ++ strncpyBuf source.username USERNAME_SIZE ++
    strncpyBuf source.email EMAIL_SIZE

/-- deserialize_row from serialize.c: copies each fixed width region back,
    padding bytes included. -/
def deserialize_row (source : List Nat) : Row :=
  { id := bytesToU32 (source.drop ID_OFFSET)
    username := (source.drop USERNAME_OFFSET).take USERNAME_SIZE
    email := (source.drop EMAIL_OFFSET).take EMAIL_SIZE }

/-- The logical, non padding content of a fixed width string field: the bytes
    before the first zero, which is where every C string read stops. -/
def logicalString (l : List Nat) : List Nat :=
  l.takeWhile (fun b => b != 0)

/-- The node type tag, the single byte discriminator shared by both node
    kinds. NODE_INTERNAL is 0 and NODE_LEAF is 1 in the source enum. -/
inductive NodeType where
  | internal
  | leaf
deriving DecidableEq

/-- One leaf cell: LEAF_NODE_CELL_SIZE raw bytes, the key bytes first and the
    serialized record after them. -/
abbrev Cell := List Nat

/-- A page as interpreted through the node layout accessors: a leaf node or an
    internal node. Leaf cell slots hold raw bytes; slots at or beyond the
    stored count are stale storage that no verified path reads. -/
inductive Node where
  | leaf (isRoot : Bool) (numCells : Nat) (cells : Nat → Cell)
  | internal (isRoot : Bool) (numKeys : Nat) (rightChild : Nat)
      (icells : Nat → Nat × Nat)

/-- get_node_type from node.c. -/
def get_node_type : Node → NodeType
  | .leaf .. => .leaf
  | .internal .. => .internal

/-- is_node_root from btree.c. -/
def is_node_root : Node → Bool
  | .leaf r .. => r
  | .internal r .. => r

/-- set_node_root from btree.c. -/
def set_node_root : Node → Bool → Node
  | .leaf _ n cs, r => .leaf r n cs
  | .internal _ k rc ic, r => .internal r k rc ic

/-- leaf_node_num_cells from node.c. The cell count sits at the same byte
    offset as the key count of an internal node, so reading it through an
    internal page yields that key count. -/
def leaf_node_num_cells : Node → Nat
  | .leaf _ n _ => n
  | .internal _ k _ _ => k

/-- The raw leaf cell area of a page, as addressed by leaf_node_cell of
    node.c. The cell area of an internal page reinterpreted through the leaf
    accessors is not representable in the structured model and is never read
    on any verified path; it is modelled as empty cells. -/
def leaf_node_cells : Node → (Nat → Cell)
  | .leaf _ _ cs => cs
  | .internal .. => fun _ => []

/-- The key of a leaf cell: the little-endian decoding of its first four
    bytes, as read through leaf_node_key of node.c. -/
def cellKey (c : Cell) : Nat := bytesToU32 c

/-- The value region of a leaf cell, as addressed by leaf_node_value of
    node.c: the bytes after the key. -/
def cellValue (c : Cell) : List Nat := c.drop LEAF_NODE_KEY_SIZE

/-- The key stored at a cell index of a leaf page. -/
def leaf_node_key (nd : Node) (i : Nat) : Nat := cellKey (leaf_node_cells nd i)

/-- internal_node_num_keys from btree.c; shares its byte offset with the leaf
    cell count. -/
def internal_node_num_keys : Node → Nat
  | .internal _ k _ _ => k
  | .leaf _ n _ => n

/-- internal_node_right_child from btree.c, read as a value. Reading it
    through a leaf page would read into the leaf cell area; no verified path
    does so, and the model returns 0 there. -/
def internal_node_right_child_val : Node → Nat
  | .internal _ _ rc _ => rc
  | .leaf .. => 0

/-- The key of an internal cell, as read via internal_node_key of btree.c. -/
def internal_node_key_val : Node → Nat → Nat
  | .internal _ _ _ ic, i => (ic i).2
  | .leaf .., _ => 0

/-- The child of an internal cell, as read via internal_node_cell. -/
def internal_node_cell_child : Node → Nat → Nat
  | .internal _ _ _ ic, i => (ic i).1
  | .leaf .., _ => 0

/-- The error taxonomy of the fatal exits of the source, one constructor per
    distinct fatal message, so the signals are distinguishable. -/
inductive DbError where
  | pageOutOfBounds
  | corruptFile
  | internalSearchUnimplemented
  | parentUpdateUnimplemented
  | childOutOfBounds
deriving DecidableEq

/-- internal_node_child from btree.c: bounds checked child access; an index
    beyond the key count is the fatal invalid request. -/
def internal_node_child (nd : Node) (childNum : Nat) : Except DbError Nat :=
  let numKeys := internal_node_num_keys nd
  if childNum > numKeys then .error .childOutOfBounds
  else if childNum = numKeys then .ok (internal_node_right_child_val nd)
  else .ok (internal_node_cell_child nd childNum)

/-- get_node_max_key from btree.c: the key of the last entry. On an empty
    node the uint32 subtraction in the source indexes far out of the page;
    the Nat model reads slot 0 instead, and every claim that uses the maximum
    key requires at least one entry. -/
def get_node_max_key : Node → Nat
  | .internal _ k _ ic => (ic (k - 1)).2
  | .leaf _ n cs => cellKey (cs (n - 1))

/-- initialize_leaf_node from btree.c: writes type, root flag and a zero cell
    count; the cell area keeps its previous bytes. -/
def initialize_leaf_node (nd : Node) : Node :=
  .leaf false 0 (leaf_node_cells nd)

/-- initialize_internal_node from btree.c: writes type, root flag and a zero
    key count. The right child pointer and the cell area keep stale bytes in
    the source; no path reads them before writing them, and the model holds
    zeros there. -/
def initialize_internal_node (_nd : Node) : Node :=
  .internal false 0 0 (fun _ => (0, 0))

/-- Write of the key count of an internal page; shares its offset with the
    leaf cell count. -/
def internal_node_set_num_keys : Node → Nat → Node
  | .internal r _ rc ic, k => .internal r k rc ic
  | .leaf r _ cs, k => .leaf r k cs

/-- Write of the right child pointer of an internal page. On a leaf page the
    write would land in the cell area; no verified path performs it and the
    model leaves the leaf unchanged. -/
def internal_node_set_right_child : Node → Nat → Node
  | .internal r k _ ic, rc => .internal r k rc ic
  | .leaf r n cs, _ => .leaf r n cs

/-- Write of the key of an internal cell, as performed through
    internal_node_key used as an lvalue. -/
def internal_node_set_key : Node → Nat → Nat → Node
  | .internal r k rc ic, i, key =>
      .internal r k rc (fun j => if j = i then ((ic i).1, key) else ic j)
  | .leaf r n cs, _, _ => .leaf r n cs

/-- Write of a child pointer through internal_node_child used as an lvalue,
    with the bounds check of the source. -/
def internal_node_set_child (nd : Node) (childNum v : Nat) :
    Except DbError Node :=
  let numKeys := internal_node_num_keys nd
  if childNum > numKeys then .error .childOutOfBounds
  else if childNum = numKeys then .ok (internal_node_set_right_child nd v)
  else
    match nd with
    | .internal r k rc ic =>
        .ok (.internal r k rc (fun j => if j = childNum then (v, (ic j).2) else ic j))
    | .leaf r n cs => .ok (.leaf r n cs)

/-- Modelled from the spec: the cursor structure of constants.h; the table
    reference is threaded separately as explicit state. The end_of_table
    field is a flag set by table_start and cursor_advance. -/
structure Cursor where
  pageNum : Nat
  cellNum : Nat
  endOfTable : Bool
deriving DecidableEq

/-- Modelled from the spec: the table structure of constants.h together with
    the page cache and page count bookkeeping of its pager, for the in-memory
    tables the B-tree claims exercise (the backing file is empty; the file
    backed pager is modelled separately as DiskPager). -/
structure Table where
  rootPageNum : Nat
  numPages : Nat
  pages : Nat → Option Node

/-- The page cache update performed by storing into a fetched page buffer. -/
def setPage (t : Table) (n : Nat) (nd : Node) : Table :=
  { t with pages := fun m => if m = n then some nd else t.pages m }

/-- get_page from pager.c, for the in-memory tables of the B-tree claims: the
    bounds check against TABLE_MAX_PAGES, the cache lookup, and on a miss the
    freshly allocated buffer together with the page count watermark update.
    The malloc contents are unspecified in the source and every verified path
    initializes a fresh page before reading it; the model uses an empty
    zeroed leaf page. -/
def get_page (t : Table) (pageNum : Nat) : Except DbError (Node × Table) :=
  if TABLE_MAX_PAGES ≤ pageNum then .error .pageOutOfBounds
  else
    match t.pages pageNum with
    | some nd => .ok (nd, t)
    | none =>
        let nd : Node := .leaf false 0 (fun _ => List.replicate LEAF_NODE_CELL_SIZE 0)
        .ok (nd, { t with
          pages := fun m => if m = pageNum then some nd else t.pages m,
          numPages := if t.numPages ≤ pageNum then pageNum + 1 else t.numPages })

/-- get_unused_page_num from pager.c: the current page count watermark. -/
def get_unused_page_num (t : Table) : Nat := t.numPages

/-- The binary search loop inside leaf_node_find of cursor.c, on the keys of
    one leaf: probe the midpoint, return on an exact match, otherwise narrow
    the half open interval. The fuel argument bounds the iterations; the
    interval strictly shrinks each step, so with fuel at least the interval
    length the fuel exit coincides with the loop exit. -/
def binSearchLoop (keys : Nat → Nat) (key : Nat) : Nat → Nat → Nat → Nat
  | 0, minIndex, _ => minIndex
  | fuel + 1, minIndex, onePastMaxIndex =>
    if minIndex < onePastMaxIndex then
      let index := (minIndex + onePastMaxIndex) / 2
      let keyAtIndex := keys index
      if key = keyAtIndex then index
      else if key < keyAtIndex then binSearchLoop keys key fuel minIndex index
      else binSearchLoop keys key fuel (index + 1) onePastMaxIndex
    else minIndex

/-- The binary search of leaf_node_find, entered with the interval from 0 to
    the cell count. -/
def binSearch (keys : Nat → Nat) (key minIndex onePastMaxIndex : Nat) : Nat :=
  binSearchLoop keys key (onePastMaxIndex - minIndex) minIndex onePastMaxIndex

/-- leaf_node_find from cursor.c: fetch the page, binary search the keys, and
    return a cursor at the found cell index. The source leaves end_of_table
    uninitialized in the malloc allocated cursor and no caller of this path
    reads it; the model sets it to false. -/
def leaf_node_find (t : Table) (pageNum key : Nat) :
    Except DbError (Cursor × Table) := do
  let (node, t1) ← get_page t pageNum
  let numCells := leaf_node_num_cells node
  let cellNum := binSearch (fun i => cellKey (leaf_node_cells node i)) key 0 numCells
  .ok ({ pageNum := pageNum, cellNum := cellNum, endOfTable := false }, t1)

/-- table_find from cursor.c: dispatch on the root node type; a leaf root
    delegates to leaf_node_find, an internal root is the fatal unimplemented
    internal search. -/
def table_find (t : Table) (key : Nat) : Except DbError (Cursor × Table) := do
  let (rootNode, t1) ← get_page t t.rootPageNum
  match get_node_type rootNode with
  | .leaf => leaf_node_find t1 t.rootPageNum key
  | .internal => .error .internalSearchUnimplemented

/-- table_start from cursor.c: a cursor at cell zero of the root page, at end
    of table exactly when the root holds zero cells. -/
def table_start (t : Table) : Except DbError (Cursor × Table) := do
  let (rootNode, t1) ← get_page t t.rootPageNum
  .ok ({ pageNum := t.rootPageNum, cellNum := 0,
         endOfTable := leaf_node_num_cells rootNode == 0 }, t1)

/-- cursor_advance from cursor.c: increment the cell index and raise end of
    table once the index reaches the cell count of the current page. -/
def cursor_advance (t : Table) (cur : Cursor) : Except DbError (Cursor × Table) := do
  let (node, t1) ← get_page t cur.pageNum
  let cellNum := cur.cellNum + 1
  .ok ({ cur with
          cellNum := cellNum,
          endOfTable := if leaf_node_num_cells node ≤ cellNum then true
                        else cur.endOfTable }, t1)

/-- The in-order scan of the claims: read the key under the cursor, advance,
    stop at end of table. The C loop runs until the end of table flag; the
    fuel argument bounds the iterations and the theorems show it suffices. -/
def scanFrom : Table → Cursor → Nat → Except DbError (List Nat)
  | _, _, 0 => .ok []
  | t, cur, fuel + 1 =>
    if cur.endOfTable then .ok []
    else do
      let (node, t1) ← get_page t cur.pageNum
      let k := cellKey (leaf_node_cells node cur.cellNum)
      let (cur1, t2) ← cursor_advance t1 cur
      let rest ← scanFrom t2 cur1 fuel
      .ok (k :: rest)

/-- The full scan: table_start, then the read and advance loop. The fuel is
    one more than the cell count of the root page. -/
def scanKeys (t : Table) : Except DbError (List Nat) := do
  let (cur, t1) ← table_start t
  let (rootNode, t2) ← get_page t1 t1.rootPageNum
  scanFrom t2 cur (leaf_node_num_cells rootNode + 1)

/-- The cell shifting loop of leaf_node_insert: for i from the cell count
    down to one past the insertion index, copy cell i-1 into cell i. -/
def shiftLoop (cellNum : Nat) : (Nat → Cell) → Nat → (Nat → Cell)
  | cells, 0 => cells
  | cells, i + 1 =>
    if cellNum < i + 1 then
      shiftLoop cellNum (fun j => if j = i + 1 then cells i else cells j) i
    else cells

/-- One iteration of the copy loop of leaf_node_split_and_insert, at logical
    position i. The destination is the right node for positions at or above
    the left split count, the old node otherwise, at position i modulo the
    left split count. At the insertion position the source calls
    serialize_row on the cell base address, so the record bytes land on the
    key field and the trailing key-size bytes of the destination cell keep
    their previous content; the key argument is never stored. Positions above
    the insertion index copy the whole cell i-1, the rest copy cell i. -/
def splitStep (cellNum : Nat) (row : Row) (old new_ : Nat → Cell) (i : Nat) :
    (Nat → Cell) × (Nat → Cell) :=
  let indexWithinNode := i % LEAF_NODE_LEFT_SPLIT_COUNT
  let toNew := LEAF_NODE_LEFT_SPLIT_COUNT ≤ i
  let destCur := if toNew then new_ indexWithinNode else old indexWithinNode
  let content : Cell :=
    if i = cellNum then serialize_row row ++ destCur.drop ROW_SIZE
    else if cellNum < i then old (i - 1)
    else old i
  if toNew then (old, fun j => if j = indexWithinNode then content else new_ j)
  else ((fun j => if j = indexWithinNode then content else old j), new_)

/-- The descending copy loop of leaf_node_split_and_insert, from logical
    position i down to 0. -/
def splitLoop (cellNum : Nat) (row : Row) :
    (Nat → Cell) × (Nat → Cell) → Nat → (Nat → Cell) × (Nat → Cell)
  | st, 0 => splitStep cellNum row st.1 st.2 0
  | st, i + 1 => splitLoop cellNum row (splitStep cellNum row st.1 st.2 (i + 1)) i

/-- create_new_root from btree.c: fetch the root and the right child,
    allocate the left child page, copy the whole root page into it and clear
    its root flag, then rewrite the root page in place as an internal node
    with one key, child 0 the left child page, the key the maximum key of the
    left child, and the right child pointer the given page number. -/
def create_new_root (t : Table) (rightChildPageNum : Nat) : Except DbError Table := do
  let (root, t1) ← get_page t t.rootPageNum
  let (_rightChild, t2) ← get_page t1 rightChildPageNum
  let leftChildPageNum := get_unused_page_num t2
  let (_leftChild0, t3) ← get_page t2 leftChildPageNum
  let leftChild := set_node_root root false
  let t4 := setPage t3 leftChildPageNum leftChild
  let root1 := initialize_internal_node root
  let root2 := set_node_root root1 true
  let root3 := internal_node_set_num_keys root2 1
  let root4 ← internal_node_set_child root3 0 leftChildPageNum
  let leftChildMaxKey := get_node_max_key leftChild
  let root5 := internal_node_set_key root4 0 leftChildMaxKey
  let root6 := internal_node_set_right_child root5 rightChildPageNum
  .ok (setPage t4 t.rootPageNum root6)

/-- leaf_node_split_and_insert from btree.c: fetch the old page, allocate and
    initialize the new right leaf, run the descending copy loop over the max
    plus one logical positions, set both cell counts to the split halves,
    then promote a new root if the old node was the root and otherwise fail
    with the fatal unimplemented parent update. The key parameter is unused
    by the source loop; see claim C1. -/
def leaf_node_split_and_insert (t : Table) (cur : Cursor) (key : Nat) (row : Row) :
    Except DbError Table := do
  let _ := key
  let (oldNode, t1) ← get_page t cur.pageNum
  let newPageNum := get_unused_page_num t1
  let (newNode0, t2) ← get_page t1 newPageNum
  let newNode1 := initialize_leaf_node newNode0
  let st := splitLoop cur.cellNum row
    (leaf_node_cells oldNode, leaf_node_cells newNode1) LEAF_NODE_MAX_CELLS
  let oldDone : Node :=
    .leaf (is_node_root oldNode) LEAF_NODE_LEFT_SPLIT_COUNT st.1
  let newDone : Node :=
    .leaf (is_node_root newNode1) LEAF_NODE_RIGHT_SPLIT_COUNT st.2
  let t3 := setPage (setPage t2 cur.pageNum oldDone) newPageNum newDone
  if is_node_root oldNode then create_new_root t3 newPageNum
  else .error .parentUpdateUnimplemented

/-- leaf_node_insert from btree.c: fetch the page; a full leaf goes to the
    split path; otherwise cells from the insertion index on are shifted right
    by one, the cell count is incremented, and the key and serialized record
    are written at the insertion index. -/
def leaf_node_insert (t : Table) (cur : Cursor) (key : Nat) (row : Row) :
    Except DbError Table := do
  let (node, t1) ← get_page t cur.pageNum
  let numCells := leaf_node_num_cells node
  if LEAF_NODE_MAX_CELLS ≤ numCells then
    leaf_node_split_and_insert t1 cur key row
  else
    let cells0 := leaf_node_cells node
    let cells1 := if cur.cellNum < numCells then shiftLoop cur.cellNum cells0 numCells
                  else cells0
    let newCell : Cell := u32Bytes key ++ serialize_row row
    let cells2 := fun j => if j = cur.cellNum then newCell else cells1 j
    .ok (setPage t1 cur.pageNum (.leaf (is_node_root node) (numCells + 1) cells2))

namespace DiskPager

/-- Modelled from the spec: the pager structure of constants.h at byte level;
    the file descriptor is replaced by the byte content of the backing file,
    which the modelled operations only read. -/
structure Pager where
  fileLength : Nat
  file : Nat → Nat
  numPages : Nat
  pages : Nat → Option (Nat → Nat)

/-- pager_open from pager.c: compute the page count from the file length and
    fail with the corruption error when the length is not a whole number of
    pages; the cache starts empty. The operating system open and seek calls
    are outside the model. -/
def pager_open (fileLength : Nat) (file : Nat → Nat) : Except DbError Pager :=
  if fileLength % PAGE_SIZE ≠ 0 then .error .corruptFile
  else .ok { fileLength := fileLength, file := file,
             numPages := fileLength / PAGE_SIZE, pages := fun _ => none }

/-- get_page from pager.c at byte level: the bounds check, the cache lookup,
    and on a miss a malloc allocated buffer whose contents the source never
    initializes, passed here as the malloc argument. Pages inside the file
    extent, the count rounded up over a partial final page, are read from the
    file; bytes past the end of file keep the malloc contents. The buffer is
    registered and the page count watermark raised when the page number is
    the highest seen. A read failure of the operating system is outside the
    model. -/
def get_page (p : Pager) (pageNum : Nat) (malloc : Nat → Nat) :
    Except DbError ((Nat → Nat) × Pager) :=
  if TABLE_MAX_PAGES ≤ pageNum then .error .pageOutOfBounds
  else
    match p.pages pageNum with
    | some page => .ok (page, p)
    | none =>
        let filePages := p.fileLength / PAGE_SIZE +
          (if p.fileLength % PAGE_SIZE ≠ 0 then 1 else 0)
        let page : Nat → Nat :=
          if pageNum < filePages then
            fun i => if pageNum * PAGE_SIZE + i < p.fileLength then
                       p.file (pageNum * PAGE_SIZE + i)
                     else malloc i
          else malloc
        .ok (page, { p with
          pages := fun m => if m = pageNum then some page else p.pages m,
          numPages := if p.numPages ≤ pageNum then pageNum + 1 else p.numPages })

/-- get_unused_page_num from pager.c: the current page count watermark. -/
def get_unused_page_num (p : Pager) : Nat := p.numPages

/-- A sequence of get_page calls, each with its own malloc contents. -/
def runGets : Pager → List (Nat × (Nat → Nat)) → Except DbError Pager
  | p, [] => .ok p
  | p, (n, m) :: rest =>
    match get_page p n m with
    | .error e => .error e
    | .ok (_, p1) => runGets p1 rest

/-- The cache invariant of claim C10: every slot at or beyond the page count
    watermark is empty. -/
def cacheInvariant (p : Pager) : Prop :=
  ∀ n, p.numPages ≤ n → p.pages n = none

end DiskPager

/-- Success predicate over the fallible operations: the computation returns
    ok and its result satisfies the postcondition. -/
def ExceptOk {α : Type} (e : Except DbError α) (P : α → Prop) : Prop :=
  match e with
  | .ok a => P a
  | .error _ => False

/-- Decision procedure for the success predicate, by computing the operation. -/
instance decExceptOk {α : Type} (P : α → Prop) [DecidablePred P] :
    (e : Except DbError α) → Decidable (ExceptOk e P)
  | .ok a => if h : P a then .isTrue h else .isFalse h
  | .error _ => .isFalse id

/-- The key sequence of the first n cell slots of a leaf cell area. -/
def keysList (cells : Nat → Cell) (n : Nat) : List Nat :=
  (List.range n).map (fun i => cellKey (cells i))

/-- The node cached at a page slot, defaulting to an empty leaf. -/
def nodeAtD (t : Table) (n : Nat) : Node :=
  (t.pages n).getD (.leaf false 0 (fun _ => []))

/-- A well formed leaf cell holding a key and a serialized record, the image
    of the two stores performed by leaf_node_insert. -/
def mkCell (k : Nat) (r : Row) : Cell := u32Bytes k ++ serialize_row r

/-- A row with empty string fields. -/
def emptyRow : Row := { id := 0, username := [], email := [] }

/-- The test row for key k: id k, username a single byte 65, email 66. -/
def rowFor (k : Nat) : Row := { id := k, username := [65], email := [66] }

/-- The cell area of the spec example leaf with keys 2, 4, 6, 8. -/
def cells2468 : Nat → Cell := fun i => mkCell (2 * (i + 1)) emptyRow

/-- A table whose root is a leaf with the four sorted keys 2, 4, 6, 8, the
    leaf of the binary search examples of the spec. -/
def table2468 : Table :=
  { rootPageNum := 0, numPages := 1,
    pages := fun n => if n = 0 then some (.leaf true 4 cells2468) else none }

/-- Postcondition selecting the cell index of a returned cursor. -/
abbrev cellNumIs (k : Nat) : Cursor × Table → Prop := fun res => res.1.cellNum = k

/-- The cell area of a root leaf filled to capacity with keys 1 through 13. -/
def full13Cells : Nat → Cell := fun i => mkCell (i + 1) (rowFor (i + 1))

/-- A table whose root leaf holds the maximum cell count, keys 1 to 13. -/
def full13Table : Table :=
  { rootPageNum := 0, numPages := 1,
    pages := fun n => if n = 0 then some (.leaf true 13 full13Cells) else none }

/-- The insertion of one more row, key 14, into the full root leaf: locate
    with table_find, insert with leaf_node_insert, which splits and promotes
    a new root. -/
def c1Run : Except DbError Table := do
  let (cur, t1) ← table_find full13Table 14
  leaf_node_insert t1 cur 14 (rowFor 14)

/-- Facts checked about the table after the root split of claim C1: the root
    page is an internal root with one key 7, child 0 page 2 and right child
    page 1; the left child max key is the root key; left and right key
    sequences are 1..7 and 8..14; and the record stored for the newly
    inserted key 14 is not the inserted row, deserializing with id 65. -/
abbrev c1Post (t : Table) : Prop :=
  get_node_type (nodeAtD t 0) = NodeType.internal ∧
  is_node_root (nodeAtD t 0) = true ∧
  internal_node_num_keys (nodeAtD t 0) = 1 ∧
  internal_node_cell_child (nodeAtD t 0) 0 = 2 ∧
  internal_node_right_child_val (nodeAtD t 0) = 1 ∧
  internal_node_key_val (nodeAtD t 0) 0 = 7 ∧
  get_node_max_key (nodeAtD t 2) = 7 ∧
  keysList (leaf_node_cells (nodeAtD t 2)) LEAF_NODE_LEFT_SPLIT_COUNT =
    [1, 2, 3, 4, 5, 6, 7] ∧
  keysList (leaf_node_cells (nodeAtD t 1)) LEAF_NODE_RIGHT_SPLIT_COUNT =
    [8, 9, 10, 11, 12, 13, 14] ∧
  deserialize_row (cellValue (leaf_node_cells (nodeAtD t 1) 6)) ≠ rowFor 14 ∧
  (deserialize_row (cellValue (leaf_node_cells (nodeAtD t 1) 6))).id = 65

/-- Modelled from the spec: a fresh table as created by the table open glue
    outside the core sources; page 0 is the root leaf with zero cells and the
    root flag set. -/
def emptyTable : Table :=
  { rootPageNum := 0, numPages := 1,
    pages := fun n => if n = 0 then
        some (.leaf true 0 (fun _ => List.replicate LEAF_NODE_CELL_SIZE 0))
      else none }

/-- The table produced by the C1 run, with the fresh empty table as the
    value of the unreachable error branch. -/
def c1Table : Table :=
  match c1Run with
  | .ok t => t
  | .error _ => emptyTable

/-- The insert sequence of claim C2: each pair is located with table_find and
    inserted with leaf_node_insert. -/
def insertAll (t : Table) : List (Nat × Row) → Except DbError Table
  | [] => .ok t
  | (k, r) :: rest => do
    let (cur, t1) ← table_find t k
    let t2 ← leaf_node_insert t1 cur k r
    insertAll t2 rest

/-- Postcondition of claim C2: the in-order scan of the resulting table is
    exactly the sorted key sequence, and that sequence is strictly
    ascending. -/
def c2Post (prs : List (Nat × Row)) (t : Table) : Prop :=
  scanKeys t = .ok (List.insertionSort (fun a b => a ≤ b) (prs.map Prod.fst)) ∧
  List.Sorted (fun a b => a < b)
    (List.insertionSort (fun a b => a ≤ b) (prs.map Prod.fst))

/-- The concrete insert sequence of the C2 witness. -/
def c2WitnessPairs : List (Nat × Row) :=
  [(3, rowFor 3), (1, rowFor 1), (2, rowFor 2)]

/-- Postcondition of claim C3 for leaf_node_find on a leaf with n sorted
    cells: the table is unchanged, the cursor sits on the requested page, its
    cell index is at most n, it is the index of the key when the key is
    present, and for an absent key it is the unique insertion index: every
    smaller index holds a smaller key and every index from it on holds a
    greater key. -/
def c3Post (t : Table) (pageNum key n : Nat) (cells : Nat → Cell) :
    Cursor × Table → Prop := fun res =>
  res.2 = t ∧
  res.1.pageNum = pageNum ∧
  res.1.cellNum ≤ n ∧
  (∀ j, j < n → cellKey (cells j) = key → res.1.cellNum = j) ∧
  ((∀ j, j < n → cellKey (cells j) ≠ key) →
    (∀ j, j < res.1.cellNum → cellKey (cells j) < key) ∧
    (∀ j, res.1.cellNum ≤ j → j < n → key < cellKey (cells j)))

/-- Postcondition of claim C4 for create_new_root on a table with root node
    rootNode: the root page number is unchanged; some left child page that
    was not previously cached now holds the verbatim copy of the old root
    with the root flag cleared; and the root page now reads, through the
    node accessors, as an internal root with one key, child 0 the left child
    page, the key the maximum key of the left child, and the right child
    pointer the given page number. -/
def c4Post (t : Table) (rightChildPageNum : Nat) (rootNode : Node)
    (t1 : Table) : Prop :=
  t1.rootPageNum = t.rootPageNum ∧
  ∃ leftNum,
    t.pages leftNum = none ∧
    t1.pages leftNum = some (set_node_root rootNode false) ∧
    get_node_type (nodeAtD t1 t.rootPageNum) = NodeType.internal ∧
    is_node_root (nodeAtD t1 t.rootPageNum) = true ∧
    internal_node_num_keys (nodeAtD t1 t.rootPageNum) = 1 ∧
    internal_node_child (nodeAtD t1 t.rootPageNum) 0 = .ok leftNum ∧
    internal_node_key_val (nodeAtD t1 t.rootPageNum) 0 =
      get_node_max_key (set_node_root rootNode false) ∧
    internal_node_right_child_val (nodeAtD t1 t.rootPageNum) = rightChildPageNum

/-- The root node of the C4 witness table: a root leaf with keys 5 and 9. -/
def c4wCells : Nat → Cell := fun i => mkCell (5 + 4 * i) emptyRow

def c4wRoot : Node := .leaf true 2 c4wCells

def c4wTable : Table :=
  { rootPageNum := 0, numPages := 1,
    pages := fun n => if n = 0 then some c4wRoot else none }

/-- The cell area of the full non root leaf of the C8 witness. -/
def c8Cells : Nat → Cell := fun i => mkCell (i + 1) (rowFor (i + 1))

/-- A table holding a full leaf on page 1 whose root flag is clear, the
    deeper split scenario of claim C8. -/
def c8Table : Table :=
  { rootPageNum := 0, numPages := 2,
    pages := fun n =>
      if n = 0 then some (.internal true 1 1 (fun _ => (1, 13)))
      else if n = 1 then some (.leaf false 13 c8Cells)
      else none }

def c8Cursor : Cursor := { pageNum := 1, cellNum := 0, endOfTable := false }

/-- A table whose root page holds an internal node, the unimplemented search
    scenario of claim C9. -/
def c9Table : Table :=
  { rootPageNum := 0, numPages := 3,
    pages := fun n =>
      if n = 0 then some (.internal true 1 2 (fun _ => (1, 7)))
      else if n ≤ 2 then some (.leaf false 1 (fun _ => mkCell 7 emptyRow))
      else none }

namespace DiskPager

/-- The all zero backing file. -/
def zeroFn : Nat → Nat := fun _ => 0

/-- A malloc result whose every byte is one, a legitimate content for the
    uninitialized buffer the source allocates. -/
def oneFn : Nat → Nat := fun _ => 1

/-- The pager over an empty file, as pager_open builds it. -/
def pagerEmpty : Pager :=
  { fileLength := 0, file := zeroFn, numPages := 0, pages := fun _ => none }

/-- The pager over a two page file, as pager_open builds it. -/
def pagerTwo : Pager :=
  { fileLength := 2 * PAGE_SIZE, file := zeroFn, numPages := 2,
    pages := fun _ => none }

/-- Postcondition of the amended claim C5: the returned buffer is exactly the
    malloc allocated one, registered in the cache, with the watermark raised
    when the page number is the highest seen; the file is not read. -/
def c5Post (p : Pager) (pageNum : Nat) (malloc : Nat → Nat) :
    (Nat → Nat) × Pager → Prop := fun res =>
  res.1 = malloc ∧
  res.2.pages pageNum = some malloc ∧
  res.2.numPages = (if p.numPages ≤ pageNum then pageNum + 1 else p.numPages) ∧
  res.2.fileLength = p.fileLength

/-- Facts of the C5 counterexample: the page was not cached, the claimed
    conditions hold, yet the returned buffer byte 0 is 1, not 0. -/
abbrev c5cexPost : (Nat → Nat) × Pager → Prop := fun res =>
  (pagerEmpty.pages 0).isNone = true ∧ (0 : Nat) < TABLE_MAX_PAGES ∧
  pagerEmpty.fileLength / PAGE_SIZE ≤ 0 ∧ res.1 0 = 1 ∧ res.1 0 ≠ 0

/-- Facts of the C6 counterexample: page 0 of a two page file was not cached,
    get_page materializes it, and the next unused page number is 2, not 1. -/
abbrev c6cexPost : (Nat → Nat) × Pager → Prop := fun res =>
  (pagerTwo.pages 0).isNone = true ∧
  get_unused_page_num res.2 = 2 ∧ (2 : Nat) ≠ 0 + 1

/-- Postcondition of the C6 witness: allocating at the watermark then
    materializing that page advances the next unused page number by one. -/
abbrev c6wPost : (Nat → Nat) × Pager → Prop := fun res =>
  get_unused_page_num res.2 = 2 + 1

/-- pager_open followed by a sequence of get_page calls. -/
def openAndRun (fileLength : Nat) (file : Nat → Nat)
    (ops : List (Nat × (Nat → Nat))) : Except DbError Pager :=
  (pager_open fileLength file).bind (fun p => runGets p ops)

/-- Conclusion of claim C10: the cache invariant holds and the slot of the
    next unused page number is empty. -/
def c10Good (p : Pager) : Prop :=
  cacheInvariant p ∧ p.pages (get_unused_page_num p) = none

/-- The concrete get_page sequence of the C10 witness. -/
def c10wOps : List (Nat × (Nat → Nat)) := [(0, zeroFn), (3, oneFn)]

end DiskPager

lemma strncpyBuf_length (s : List Nat) (n : Nat) : (strncpyBuf s n).length = n := by
  rw [strncpyBuf, List.length_append, List.length_take, List.length_replicate]
  rcases Nat.le_total n s.length with h | h
  · rw [Nat.min_eq_left h, Nat.sub_eq_zero_of_le h, Nat.add_zero]
  · rw [Nat.min_eq_right h, Nat.add_sub_cancel' h]

lemma u32Bytes_length (k : Nat) : (u32Bytes k).length = 4 := by
  simp [u32Bytes]

lemma serialize_row_length (r : Row) : (serialize_row r).length = ROW_SIZE := by
  simp [serialize_row, strncpyBuf_length, u32Bytes_length, ROW_SIZE, ID_SIZE,
    USERNAME_SIZE, EMAIL_SIZE]

lemma bytesToU32_u32Bytes_append (k : Nat) (rest : List Nat) :
    bytesToU32 (u32Bytes k ++ rest) = k % 4294967296 := by
  show k % 256 + 256 * (k / 256 % 256) + 65536 * (k / 65536 % 256) +
      16777216 * (k / 16777216 % 256) = k % 4294967296
  have d2 : k / 256 / 256 = k / 65536 := by
    rw [Nat.div_div_eq_div_mul]
  have d3 : k / 256 / 256 / 256 = k / 16777216 := by
    rw [Nat.div_div_eq_div_mul, Nat.div_div_eq_div_mul]
  symm
  calc k % 4294967296
      = k % (256 * 16777216) := rfl
    _ = k % 256 + 256 * (k / 256 % 16777216) := Nat.mod_mul
    _ = k % 256 + 256 * (k / 256 % (256 * 65536)) := rfl
    _ = k % 256 + 256 * (k / 256 % 256 + 256 * (k / 256 / 256 % 65536)) := by
        rw [Nat.mod_mul]
    _ = k % 256 + 256 * (k / 256 % 256 + 256 * (k / 256 / 256 % (256 * 256))) :=
        rfl
    _ = k % 256 + 256 * (k / 256 % 256 + 256 * (k / 256 / 256 % 256 +
          256 * (k / 256 / 256 / 256 % 256))) := by
        rw [Nat.mod_mul]
    _ = k % 256 + 256 * (k / 256 % 256) + 65536 * (k / 65536 % 256) +
          16777216 * (k / 16777216 % 256) := by
        rw [d3, d2, Nat.mul_add, ← Nat.add_assoc, ← Nat.mul_assoc,
          Nat.mul_add, ← Nat.add_assoc, ← Nat.mul_assoc]

lemma takeWhile_replicate_zero (m : Nat) :
    (List.replicate m (0 : Nat)).takeWhile (fun b => b != 0) = [] := by
  cases m with
  | zero => simp
  | succ m => simp [List.replicate_succ, List.takeWhile_cons]

lemma takeWhile_append_all (u v : List Nat) (h : ∀ b ∈ u, b ≠ 0) :
    (u ++ v).takeWhile (fun b => b != 0) = u ++ v.takeWhile (fun b => b != 0) := by
  induction u with
  | nil => simp
  | cons a u ih =>
    have ha : a ≠ 0 := h a (by simp)
    simp [List.takeWhile_cons, ha, ih (fun b hb => h b (by simp [hb]))]

lemma logicalString_strncpyBuf (u : List Nat) (n : Nat)
    (hlen : u.length ≤ n) (h0 : ∀ b ∈ u, b ≠ 0) :
    logicalString (strncpyBuf u n) = u := by
  unfold logicalString strncpyBuf
  rw [List.take_of_length_le hlen, takeWhile_append_all u _ h0,
    takeWhile_replicate_zero]
  simp

/-- C7: deserialize_row after serialize_row recovers the id field and the
    logical, non padding content of the username and email fields of every
    row whose string fields fit their fixed widths; both codec directions are
    total functions over the correctly sized ROW_SIZE buffer the encoder
    always produces. -/
theorem c7_serialize_roundtrip (r : Row) (hid : r.id < 4294967296)
    (hu : r.username.length ≤ USERNAME_SIZE) (hu0 : ∀ b ∈ r.username, b ≠ 0)
    (he : r.email.length ≤ EMAIL_SIZE) (he0 : ∀ b ∈ r.email, b ≠ 0) :
    (serialize_row r).length = ROW_SIZE ∧
    (deserialize_row (serialize_row r)).id = r.id ∧
    logicalString (deserialize_row (serialize_row r)).username = r.username ∧
    logicalString (deserialize_row (serialize_row r)).email = r.email := by
  have hdrop4 : (serialize_row r).drop 4 =
      strncpyBuf r.username USERNAME_SIZE ++ strncpyBuf r.email EMAIL_SIZE := by
    unfold serialize_row
    exact List.drop_left' (u32Bytes_length r.id)
  refine ⟨serialize_row_length r, ?_, ?_, ?_⟩
  · show bytesToU32 ((serialize_row r).drop ID_OFFSET) = r.id
    unfold serialize_row
    simp only [ID_OFFSET, List.drop_zero]
    rw [List.append_assoc, bytesToU32_u32Bytes_append]
    exact Nat.mod_eq_of_lt hid
  · show logicalString (((serialize_row r).drop USERNAME_OFFSET).take USERNAME_SIZE) = _
    have : USERNAME_OFFSET = 4 := by decide
    rw [this, hdrop4, List.take_left' (strncpyBuf_length _ _)]
    exact logicalString_strncpyBuf _ _ hu hu0
  · show logicalString (((serialize_row r).drop EMAIL_OFFSET).take EMAIL_SIZE) = _
    have h36 : EMAIL_OFFSET = 4 + USERNAME_SIZE := by decide
    have hdrop : (serialize_row r).drop EMAIL_OFFSET = strncpyBuf r.email EMAIL_SIZE := by
      rw [h36, ← List.drop_drop, hdrop4]
      exact List.drop_left' (strncpyBuf_length _ _)
    rw [hdrop, List.take_of_length_le (by rw [strncpyBuf_length])]
    exact logicalString_strncpyBuf _ _ he he0

theorem c7_serialize_roundtrip_witness :
    ((rowFor 1).id < 4294967296 ∧ (rowFor 1).username.length ≤ USERNAME_SIZE ∧
      (rowFor 1).email.length ≤ EMAIL_SIZE) ∧
    ((serialize_row (rowFor 1)).length = ROW_SIZE ∧
      (deserialize_row (serialize_row (rowFor 1))).id = (rowFor 1).id ∧
      logicalString (deserialize_row (serialize_row (rowFor 1))).username =
        (rowFor 1).username ∧
      logicalString (deserialize_row (serialize_row (rowFor 1))).email =
        (rowFor 1).email) :=
  ⟨⟨by decide, by decide, by decide⟩,
    c7_serialize_roundtrip (rowFor 1) (by decide) (by decide) (by decide)
      (by decide) (by decide)⟩

lemma keysList_length (cells : Nat → Cell) (n : Nat) :
    (keysList cells n).length = n := by
  simp [keysList]

lemma keysList_getElem (cells : Nat → Cell) (n i : Nat)
    (h : i < (keysList cells n).length) :
    (keysList cells n)[i] = cellKey (cells i) := by
  simp [keysList]

lemma sorted_keysList_iff (cells : Nat → Cell) (n : Nat) :
    List.Sorted (fun a b => a < b) (keysList cells n) ↔
      ∀ i j, i < j → j < n → cellKey (cells i) < cellKey (cells j) := by
  rw [List.Sorted, List.pairwise_iff_getElem]
  constructor
  · intro h i j hij hj
    have hi : i < (keysList cells n).length := by
      rw [keysList_length]; exact Nat.lt_trans hij hj
    have hj2 : j < (keysList cells n).length := by
      rw [keysList_length]; exact hj
    have := h i j hi hj2 hij
    rwa [keysList_getElem, keysList_getElem] at this
  · intro h i j hi hj hij
    rw [keysList_getElem, keysList_getElem]
    exact h i j hij (keysList_length cells n ▸ hj)

lemma binSearchLoop_spec (keys : Nat → Nat) (key n : Nat)
    (hsorted : ∀ i j, i < j → j < n → keys i < keys j) :
    ∀ fuel lo hi, lo ≤ hi → hi ≤ n → hi - lo ≤ fuel →
    (∀ j, j < lo → keys j < key) →
    (∀ j, hi ≤ j → j < n → key < keys j) →
    (lo ≤ binSearchLoop keys key fuel lo hi ∧
      binSearchLoop keys key fuel lo hi ≤ hi) ∧
    ((∃ j, j < n ∧ keys j = key) →
      binSearchLoop keys key fuel lo hi < n ∧
      keys (binSearchLoop keys key fuel lo hi) = key) ∧
    ((∀ j, j < n → keys j ≠ key) →
      (∀ j, j < binSearchLoop keys key fuel lo hi → keys j < key) ∧
      (∀ j, binSearchLoop keys key fuel lo hi ≤ j → j < n →
        key < keys j)) := by
  intro fuel
  induction fuel with
  | zero =>
    intro lo hi hlohi hhin hfuel hlo hhi
    have heq : lo = hi :=
      Nat.le_antisymm hlohi (Nat.le_of_sub_eq_zero (Nat.le_zero.mp hfuel))
    subst heq
    refine ⟨⟨le_refl _, le_refl _⟩, ?_, ?_⟩
    · rintro ⟨j, hj, hkey⟩
      rcases Nat.lt_or_ge j lo with h | h
      · exact absurd hkey (Nat.ne_of_lt (hlo j h))
      · exact absurd hkey (Nat.ne_of_gt (hhi j h hj))
    · intro _
      exact ⟨fun j hj => hlo j hj, fun j hj hjn => hhi j hj hjn⟩
  | succ fuel ih =>
    intro lo hi hlohi hhin hfuel hlo hhi
    by_cases hlt : lo < hi
    · have hmidlo : lo ≤ (lo + hi) / 2 := by
        have h1 : (lo + lo) / 2 ≤ (lo + hi) / 2 :=
          Nat.div_le_div_right (Nat.add_le_add_left (Nat.le_of_lt hlt) lo)
        rwa [← Nat.two_mul, Nat.mul_div_cancel_left lo (Nat.succ_pos 1)] at h1
      have hmidhi : (lo + hi) / 2 < hi := by
        rw [Nat.div_lt_iff_lt_mul (Nat.succ_pos 1), Nat.mul_two]
        exact Nat.add_lt_add_right hlt hi
      have hmidn : (lo + hi) / 2 < n := Nat.lt_of_lt_of_le hmidhi hhin
      by_cases heq : key = keys ((lo + hi) / 2)
      · have hres : binSearchLoop keys key (fuel + 1) lo hi = (lo + hi) / 2 := by
          rw [binSearchLoop, if_pos hlt]
          show (if key = keys ((lo + hi) / 2) then (lo + hi) / 2
            else if key < keys ((lo + hi) / 2) then
              binSearchLoop keys key fuel lo ((lo + hi) / 2)
            else binSearchLoop keys key fuel ((lo + hi) / 2 + 1) hi) =
            (lo + hi) / 2
          rw [if_pos heq]
        rw [hres]
        refine ⟨⟨hmidlo, le_of_lt hmidhi⟩, ?_, ?_⟩
        · intro _
          exact ⟨hmidn, heq.symm⟩
        · intro habs
          exact absurd heq.symm (habs _ hmidn)
      · by_cases hless : key < keys ((lo + hi) / 2)
        · have hres : binSearchLoop keys key (fuel + 1) lo hi =
              binSearchLoop keys key fuel lo ((lo + hi) / 2) := by
            rw [binSearchLoop, if_pos hlt]
            show (if key = keys ((lo + hi) / 2) then (lo + hi) / 2
              else if key < keys ((lo + hi) / 2) then
                binSearchLoop keys key fuel lo ((lo + hi) / 2)
              else binSearchLoop keys key fuel ((lo + hi) / 2 + 1) hi) =
              binSearchLoop keys key fuel lo ((lo + hi) / 2)
            rw [if_neg heq, if_pos hless]
          rw [hres]
          have hhi2 : ∀ j, (lo + hi) / 2 ≤ j → j < n → key < keys j := by
            intro j hj hjn
            rcases Nat.eq_or_lt_of_le hj with h | h
            · rw [← h]; exact hless
            · exact lt_trans hless (hsorted _ _ h hjn)
          have hsub : (lo + hi) / 2 - lo ≤ fuel :=
            Nat.lt_succ_iff.mp
              (Nat.lt_of_lt_of_le (Nat.sub_lt_sub_right hmidlo hmidhi) hfuel)
          have := ih lo ((lo + hi) / 2) hmidlo (Nat.le_of_lt hmidn) hsub hlo hhi2
          exact ⟨⟨this.1.1, le_trans this.1.2 (le_of_lt hmidhi)⟩, this.2.1, this.2.2⟩
        · have hgt : keys ((lo + hi) / 2) < key :=
            Nat.lt_of_le_of_ne (Nat.le_of_not_lt hless) (fun h => heq h.symm)
          have hres : binSearchLoop keys key (fuel + 1) lo hi =
              binSearchLoop keys key fuel ((lo + hi) / 2 + 1) hi := by
            rw [binSearchLoop, if_pos hlt]
            show (if key = keys ((lo + hi) / 2) then (lo + hi) / 2
              else if key < keys ((lo + hi) / 2) then
                binSearchLoop keys key fuel lo ((lo + hi) / 2)
              else binSearchLoop keys key fuel ((lo + hi) / 2 + 1) hi) =
              binSearchLoop keys key fuel ((lo + hi) / 2 + 1) hi
            rw [if_neg heq, if_neg hless]
          rw [hres]
          have hlo2 : ∀ j, j < (lo + hi) / 2 + 1 → keys j < key := by
            intro j hj
            rcases Nat.lt_or_ge j ((lo + hi) / 2) with h2 | h2
            · exact lt_trans (hsorted _ _ h2 hmidn) hgt
            · have h3 : j = (lo + hi) / 2 :=
                Nat.le_antisymm (Nat.lt_succ_iff.mp hj) h2
              rw [h3]; exact hgt
          have hsub2 : hi - ((lo + hi) / 2 + 1) ≤ fuel :=
            Nat.lt_succ_iff.mp
              (Nat.lt_of_lt_of_le
                (Nat.sub_lt_sub_left hlt (Nat.lt_succ_of_le hmidlo)) hfuel)
          have := ih ((lo + hi) / 2 + 1) hi (Nat.succ_le_of_lt hmidhi) hhin
            hsub2 hlo2 hhi
          exact ⟨⟨le_trans (Nat.le_succ_of_le hmidlo) this.1.1, this.1.2⟩,
            this.2.1, this.2.2⟩
    · have heq : lo = hi := Nat.le_antisymm hlohi (Nat.le_of_not_lt hlt)
      subst heq
      have hres : binSearchLoop keys key (fuel + 1) lo lo = lo := by
        rw [binSearchLoop, if_neg (Nat.lt_irrefl lo)]
      rw [hres]
      refine ⟨⟨le_refl _, le_refl _⟩, ?_, ?_⟩
      · rintro ⟨j, hj, hkey⟩
        rcases Nat.lt_or_ge j lo with h | h
        · exact absurd hkey (Nat.ne_of_lt (hlo j h))
        · exact absurd hkey (Nat.ne_of_gt (hhi j h hj))
      · intro _
        exact ⟨fun j hj => hlo j hj, fun j hj hjn => hhi j hj hjn⟩

lemma binSearch_spec (keys : Nat → Nat) (key n : Nat)
    (hsorted : ∀ i j, i < j → j < n → keys i < keys j) :
    (binSearch keys key 0 n ≤ n) ∧
    ((∃ j, j < n ∧ keys j = key) →
      binSearch keys key 0 n < n ∧ keys (binSearch keys key 0 n) = key) ∧
    ((∀ j, j < n → keys j ≠ key) →
      (∀ j, j < binSearch keys key 0 n → keys j < key) ∧
      (∀ j, binSearch keys key 0 n ≤ j → j < n → key < keys j)) := by
  have := binSearchLoop_spec keys key n hsorted (n - 0) 0 n (Nat.zero_le n)
    (le_refl n) (le_refl _) (fun j hj => absurd hj (Nat.not_lt_zero j))
    (fun j hj hjn => absurd hjn (Nat.not_lt.mpr hj))
  exact ⟨this.1.2, this.2.1, this.2.2⟩

lemma get_page_cached (t : Table) (pageNum : Nat) (nd : Node)
    (hp : pageNum < TABLE_MAX_PAGES) (hpage : t.pages pageNum = some nd) :
    get_page t pageNum = .ok (nd, t) := by
  simp [get_page, Nat.not_le_of_lt hp, hpage]

lemma get_page_fresh (t : Table) (n : Nat)
    (hb : ¬ TABLE_MAX_PAGES ≤ n) (hn : t.pages n = none) :
    get_page t n = .ok
      (Node.leaf false 0 (fun _ => List.replicate LEAF_NODE_CELL_SIZE 0),
        { t with
          pages := fun m => if m = n then
              some (Node.leaf false 0 (fun _ => List.replicate LEAF_NODE_CELL_SIZE 0))
            else t.pages m,
          numPages := if t.numPages ≤ n then n + 1 else t.numPages }) := by
  rw [get_page, if_neg hb, hn]

lemma leaf_node_find_cached (t : Table) (pageNum key : Nat) (r : Bool)
    (n : Nat) (cells : Nat → Cell)
    (hp : pageNum < TABLE_MAX_PAGES)
    (hpage : t.pages pageNum = some (.leaf r n cells)) :
    leaf_node_find t pageNum key =
      .ok ({ pageNum := pageNum,
             cellNum := binSearch (fun i => cellKey (cells i)) key 0 n,
             endOfTable := false }, t) := by
  rw [leaf_node_find, get_page_cached t pageNum _ hp hpage]
  rfl

/-- C3: on a leaf page whose keys are sorted strictly ascending,
    leaf_node_find returns a cursor whose cell index is the index of the key
    when present and otherwise the unique insertion index that keeps the keys
    sorted; in particular on the leaf with keys 2, 4, 6, 8, searching 5 gives
    index 2, searching 6 gives index 2, searching 0 gives index 0 and
    searching 9 gives index 4. -/
theorem c3_leaf_node_find_binary_search (t : Table) (pageNum key : Nat)
    (r : Bool) (n : Nat) (cells : Nat → Cell)
    (hp : pageNum < TABLE_MAX_PAGES)
    (hpage : t.pages pageNum = some (.leaf r n cells))
    (hsorted : List.Sorted (fun a b => a < b) (keysList cells n)) :
    ExceptOk (leaf_node_find t pageNum key) (c3Post t pageNum key n cells) ∧
    ExceptOk (leaf_node_find table2468 0 5) (cellNumIs 2) ∧
    ExceptOk (leaf_node_find table2468 0 6) (cellNumIs 2) ∧
    ExceptOk (leaf_node_find table2468 0 0) (cellNumIs 0) ∧
    ExceptOk (leaf_node_find table2468 0 9) (cellNumIs 4) := by
  refine ⟨?_, by decide, by decide, by decide, by decide⟩
  rw [leaf_node_find_cached t pageNum key r n cells hp hpage]
  have hsorted2 : ∀ i j, i < j → j < n → cellKey (cells i) < cellKey (cells j) :=
    (sorted_keysList_iff cells n).mp hsorted
  have hspec := binSearch_spec (fun i => cellKey (cells i)) key n hsorted2
  refine ⟨rfl, rfl, hspec.1, ?_, ?_⟩
  · intro j hj hkey
    show binSearch (fun i => cellKey (cells i)) key 0 n = j
    have hpres := hspec.2.1 ⟨j, hj, hkey⟩
    have hres : cellKey (cells (binSearch (fun i => cellKey (cells i)) key 0 n)) = key :=
      hpres.2
    rcases Nat.lt_trichotomy (binSearch (fun i => cellKey (cells i)) key 0 n) j
      with h | h | h
    · have := hsorted2 _ _ h hj
      rw [hres, hkey] at this
      exact absurd this (lt_irrefl key)
    · exact h
    · have := hsorted2 _ _ h hpres.1
      rw [hres, hkey] at this
      exact absurd this (lt_irrefl key)
  · intro habs
    exact hspec.2.2 habs

theorem c3_leaf_node_find_binary_search_witness :
    (table2468.pages 0 = some (.leaf true 4 cells2468) ∧
      List.Sorted (fun a b => a < b) (keysList cells2468 4)) ∧
    (ExceptOk (leaf_node_find table2468 0 5) (c3Post table2468 0 5 4 cells2468) ∧
      ExceptOk (leaf_node_find table2468 0 5) (cellNumIs 2) ∧
      ExceptOk (leaf_node_find table2468 0 6) (cellNumIs 2) ∧
      ExceptOk (leaf_node_find table2468 0 0) (cellNumIs 0) ∧
      ExceptOk (leaf_node_find table2468 0 9) (cellNumIs 4)) :=
  ⟨⟨rfl, by decide⟩,
    c3_leaf_node_find_binary_search table2468 0 5 true 4 cells2468
      (by decide) rfl (by decide)⟩

/-- C8: inserting through leaf_node_insert at a cursor on a full leaf whose
    node is not the root takes the split path and terminates with the
    specific fatal unimplemented parent update signal, a constructor of the
    error taxonomy distinct from the corruption and input output errors. The
    pager must still have room for the new sibling page; past the hard page
    maximum the earlier capacity fatal fires instead. -/
theorem c8_split_nonroot_fails_parent_update (t : Table) (cur : Cursor)
    (key : Nat) (row : Row) (cells : Nat → Cell)
    (hpage : t.pages cur.pageNum = some (.leaf false LEAF_NODE_MAX_CELLS cells))
    (hp : cur.pageNum < TABLE_MAX_PAGES)
    (hnp : t.numPages < TABLE_MAX_PAGES) :
    leaf_node_insert t cur key row = .error .parentUpdateUnimplemented := by
  rw [leaf_node_insert, get_page_cached t cur.pageNum _ hp hpage]
  show leaf_node_split_and_insert t cur key row = _
  rw [leaf_node_split_and_insert, get_page_cached t cur.pageNum _ hp hpage]
  show (do
    let (newNode0, t2) ← get_page t (get_unused_page_num t)
    let newNode1 := initialize_leaf_node newNode0
    let st := splitLoop cur.cellNum row
      (leaf_node_cells (Node.leaf false LEAF_NODE_MAX_CELLS cells),
        leaf_node_cells newNode1) LEAF_NODE_MAX_CELLS
    let oldDone : Node :=
      .leaf (is_node_root (Node.leaf false LEAF_NODE_MAX_CELLS cells))
        LEAF_NODE_LEFT_SPLIT_COUNT st.1
    let newDone : Node :=
      .leaf (is_node_root newNode1) LEAF_NODE_RIGHT_SPLIT_COUNT st.2
    let t3 := setPage (setPage t2 cur.pageNum oldDone) (get_unused_page_num t) newDone
    if is_node_root (Node.leaf false LEAF_NODE_MAX_CELLS cells) then
      create_new_root t3 (get_unused_page_num t)
    else .error .parentUpdateUnimplemented) = Except.error .parentUpdateUnimplemented
  rcases h2 : get_page t (get_unused_page_num t) with e | pr
  · exfalso
    rw [get_page] at h2
    rcases h3 : t.pages (get_unused_page_num t) with _ | nd
    · rw [if_neg (by exact Nat.not_le_of_lt hnp), h3] at h2
      exact Except.noConfusion h2
    · rw [if_neg (by exact Nat.not_le_of_lt hnp), h3] at h2
      exact Except.noConfusion h2
  · obtain ⟨nd2, t2⟩ := pr
    rfl

/-- C9: table_find delegates to leaf_node_find on the root page when the root
    node type tag is leaf and fails fatally with the specific not implemented
    signal, returning no cursor and no table, when the root is internal. -/
theorem c9_table_find_dispatch (t : Table) (key : Nat) (nd : Node)
    (hpage : t.pages t.rootPageNum = some nd)
    (hp : t.rootPageNum < TABLE_MAX_PAGES) :
    (get_node_type nd = NodeType.leaf →
      table_find t key = leaf_node_find t t.rootPageNum key) ∧
    (get_node_type nd = NodeType.internal →
      table_find t key = .error .internalSearchUnimplemented) := by
  constructor
  · intro htype
    rw [table_find, get_page_cached t t.rootPageNum nd hp hpage]
    cases nd with
    | leaf r n cells => rfl
    | internal r k rc ic => exact absurd htype (by simp [get_node_type])
  · intro htype
    rw [table_find, get_page_cached t t.rootPageNum nd hp hpage]
    cases nd with
    | leaf r n cells => exact absurd htype (by simp [get_node_type])
    | internal r k rc ic => rfl

theorem c8_split_nonroot_fails_parent_update_witness :
    (c8Table.pages c8Cursor.pageNum =
        some (.leaf false LEAF_NODE_MAX_CELLS c8Cells) ∧
      c8Cursor.pageNum < TABLE_MAX_PAGES ∧ c8Table.numPages < TABLE_MAX_PAGES) ∧
    leaf_node_insert c8Table c8Cursor 99 (rowFor 99) =
      .error .parentUpdateUnimplemented :=
  ⟨⟨rfl, by decide, by decide⟩,
    c8_split_nonroot_fails_parent_update c8Table c8Cursor 99 (rowFor 99)
      c8Cells rfl (by decide) (by decide)⟩

theorem c9_table_find_dispatch_witness :
    (c9Table.pages c9Table.rootPageNum =
        some (.internal true 1 2 (fun _ => (1, 7))) ∧
      c9Table.rootPageNum < TABLE_MAX_PAGES) ∧
    ((get_node_type (.internal true 1 2 (fun _ => (1, 7))) = NodeType.leaf →
      table_find c9Table 5 = leaf_node_find c9Table c9Table.rootPageNum 5) ∧
    (get_node_type (.internal true 1 2 (fun _ => (1, 7))) = NodeType.internal →
      table_find c9Table 5 = .error .internalSearchUnimplemented)) :=
  ⟨⟨rfl, by decide⟩,
    c9_table_find_dispatch c9Table 5 (.internal true 1 2 (fun _ => (1, 7)))
      rfl (by decide)⟩

/-- C1: evaluation of the split at the failing input. Inserting key 14 with
    row id 14 into the full root leaf with keys 1 to 13 produces the claimed
    root shape: an internal root with one key 7 and two children whose key
    sequences are 1..7 and 8..14. The final conjuncts exhibit the bug: the
    copy loop of leaf_node_split_and_insert passes the cell base address to
    serialize_row, so the key field of the new cell receives the row id bytes
    and the record region is shifted by the key size; the record stored for
    key 14 is not the inserted row and deserializes with id 65, the first
    username byte. The claim that the two children hold the full sorted
    sequence of all fourteen inserted rows therefore fails on the code. -/
lemma c1_shape :
    get_node_type (nodeAtD c1Table 0) = NodeType.internal ∧
    is_node_root (nodeAtD c1Table 0) = true ∧
    internal_node_num_keys (nodeAtD c1Table 0) = 1 ∧
    internal_node_cell_child (nodeAtD c1Table 0) 0 = 2 ∧
    internal_node_right_child_val (nodeAtD c1Table 0) = 1 ∧
    internal_node_key_val (nodeAtD c1Table 0) 0 = 7 ∧
    get_node_max_key (nodeAtD c1Table 2) = 7 :=
  ⟨by decide, by decide, by decide, by decide, by decide, by decide, by decide⟩

lemma c1_key_l0 : cellKey (leaf_node_cells (nodeAtD c1Table 2) 0) = 1 := by decide

lemma c1_key_l1 : cellKey (leaf_node_cells (nodeAtD c1Table 2) 1) = 2 := by decide

lemma c1_key_l2 : cellKey (leaf_node_cells (nodeAtD c1Table 2) 2) = 3 := by decide

lemma c1_key_l3 : cellKey (leaf_node_cells (nodeAtD c1Table 2) 3) = 4 := by decide

lemma c1_key_l4 : cellKey (leaf_node_cells (nodeAtD c1Table 2) 4) = 5 := by decide

lemma c1_key_l5 : cellKey (leaf_node_cells (nodeAtD c1Table 2) 5) = 6 := by decide

lemma c1_key_l6 : cellKey (leaf_node_cells (nodeAtD c1Table 2) 6) = 7 := by decide

lemma c1_key_r0 : cellKey (leaf_node_cells (nodeAtD c1Table 1) 0) = 8 := by decide

lemma c1_key_r1 : cellKey (leaf_node_cells (nodeAtD c1Table 1) 1) = 9 := by decide

lemma c1_key_r2 : cellKey (leaf_node_cells (nodeAtD c1Table 1) 2) = 10 := by decide

lemma c1_key_r3 : cellKey (leaf_node_cells (nodeAtD c1Table 1) 3) = 11 := by decide

lemma c1_key_r4 : cellKey (leaf_node_cells (nodeAtD c1Table 1) 4) = 12 := by decide

lemma c1_key_r5 : cellKey (leaf_node_cells (nodeAtD c1Table 1) 5) = 13 := by decide

lemma c1_key_r6 : cellKey (leaf_node_cells (nodeAtD c1Table 1) 6) = 14 := by decide

lemma c1_left_keys :
    keysList (leaf_node_cells (nodeAtD c1Table 2)) LEAF_NODE_LEFT_SPLIT_COUNT =
      [1, 2, 3, 4, 5, 6, 7] := by
  show [cellKey (leaf_node_cells (nodeAtD c1Table 2) 0),
    cellKey (leaf_node_cells (nodeAtD c1Table 2) 1),
    cellKey (leaf_node_cells (nodeAtD c1Table 2) 2),
    cellKey (leaf_node_cells (nodeAtD c1Table 2) 3),
    cellKey (leaf_node_cells (nodeAtD c1Table 2) 4),
    cellKey (leaf_node_cells (nodeAtD c1Table 2) 5),
    cellKey (leaf_node_cells (nodeAtD c1Table 2) 6)] = [1, 2, 3, 4, 5, 6, 7]
  rw [c1_key_l0, c1_key_l1, c1_key_l2, c1_key_l3, c1_key_l4, c1_key_l5,
    c1_key_l6]

lemma c1_right_keys :
    keysList (leaf_node_cells (nodeAtD c1Table 1)) LEAF_NODE_RIGHT_SPLIT_COUNT =
      [8, 9, 10, 11, 12, 13, 14] := by
  show [cellKey (leaf_node_cells (nodeAtD c1Table 1) 0),
    cellKey (leaf_node_cells (nodeAtD c1Table 1) 1),
    cellKey (leaf_node_cells (nodeAtD c1Table 1) 2),
    cellKey (leaf_node_cells (nodeAtD c1Table 1) 3),
    cellKey (leaf_node_cells (nodeAtD c1Table 1) 4),
    cellKey (leaf_node_cells (nodeAtD c1Table 1) 5),
    cellKey (leaf_node_cells (nodeAtD c1Table 1) 6)] =
    [8, 9, 10, 11, 12, 13, 14]
  rw [c1_key_r0, c1_key_r1, c1_key_r2, c1_key_r3, c1_key_r4, c1_key_r5,
    c1_key_r6]

lemma c1_record_id :
    (deserialize_row (cellValue (leaf_node_cells (nodeAtD c1Table 1) 6))).id =
      65 := by
  decide

lemma c1_record_ne :
    deserialize_row (cellValue (leaf_node_cells (nodeAtD c1Table 1) 6)) ≠
      rowFor 14 :=
  fun heq => absurd (congrArg Row.id heq) (by decide)

theorem c1_split_misplaces_new_row : ExceptOk c1Run c1Post :=
  show c1Post c1Table from
    ⟨c1_shape.1, c1_shape.2.1, c1_shape.2.2.1, c1_shape.2.2.2.1,
      c1_shape.2.2.2.2.1, c1_shape.2.2.2.2.2.1, c1_shape.2.2.2.2.2.2,
      c1_left_keys, c1_right_keys, c1_record_ne, c1_record_id⟩

lemma exceptOk_imp {α : Type} (e : Except DbError α) (P Q : α → Prop)
    (h : ExceptOk e P) (himp : ∀ a, P a → Q a) : ExceptOk e Q := by
  cases e with
  | ok a => exact himp a h
  | error _ => exact h

lemma DiskPager.get_page_hit (p : DiskPager.Pager) (n : Nat)
    (pg malloc : Nat → Nat) (hb : ¬ TABLE_MAX_PAGES ≤ n)
    (hc : p.pages n = some pg) :
    DiskPager.get_page p n malloc = .ok (pg, p) := by
  rw [DiskPager.get_page, if_neg hb, hc]

lemma DiskPager.get_page_uncached (p : DiskPager.Pager) (n : Nat)
    (malloc : Nat → Nat) (hb : ¬ TABLE_MAX_PAGES ≤ n)
    (hc : p.pages n = none) :
    DiskPager.get_page p n malloc =
      .ok (if n < p.fileLength / PAGE_SIZE +
            (if p.fileLength % PAGE_SIZE ≠ 0 then 1 else 0) then
            fun i => if n * PAGE_SIZE + i < p.fileLength then
                       p.file (n * PAGE_SIZE + i)
                     else malloc i
           else malloc,
        { p with
          pages := fun m => if m = n then
              some (if n < p.fileLength / PAGE_SIZE +
                  (if p.fileLength % PAGE_SIZE ≠ 0 then 1 else 0) then
                  fun i => if n * PAGE_SIZE + i < p.fileLength then
                             p.file (n * PAGE_SIZE + i)
                           else malloc i
                 else malloc)
            else p.pages m,
          numPages := if p.numPages ≤ n then n + 1
            else p.numPages }) := by
  rw [DiskPager.get_page, if_neg hb, hc]

/-- C5 counterexample: the pager over an empty file, built by pager_open, and
    a get_page of page 0 under a legitimate malloc behavior whose bytes are
    all one. The claimed conditions hold, the page number is in bounds, not
    cached and at the file page count, yet byte 0 of the returned buffer is
    1, not 0: the source allocates with malloc and never zeroes the buffer. -/
theorem c5_fresh_page_not_zeroed_counterexample :
    DiskPager.pager_open 0 DiskPager.zeroFn = .ok DiskPager.pagerEmpty ∧
    ExceptOk (DiskPager.get_page DiskPager.pagerEmpty 0 DiskPager.oneFn)
      DiskPager.c5cexPost :=
  ⟨rfl, by decide⟩

/-- C5 amended: under the conditions of the claim, and the whole page file
    length invariant pager_open establishes, the buffer returned by get_page
    is freshly allocated and registered in the cache, and its contents are
    exactly the allocator supplied malloc bytes, which the code leaves
    uninitialized; they are not necessarily zero. -/
theorem c5_fresh_page_is_malloc_contents (p : DiskPager.Pager)
    (pageNum : Nat) (malloc : Nat → Nat)
    (h1 : pageNum < TABLE_MAX_PAGES)
    (h2 : p.pages pageNum = none)
    (h3 : p.fileLength % PAGE_SIZE = 0)
    (h4 : p.fileLength / PAGE_SIZE ≤ pageNum) :
    ExceptOk (DiskPager.get_page p pageNum malloc)
      (DiskPager.c5Post p pageNum malloc) := by
  have hnb : ¬ TABLE_MAX_PAGES ≤ pageNum := Nat.not_le_of_lt h1
  have hnf : ¬ pageNum < p.fileLength / PAGE_SIZE +
      (if p.fileLength % PAGE_SIZE ≠ 0 then 1 else 0) := by
    rw [h3, if_neg (fun hcon : (0 : Nat) ≠ 0 => hcon rfl), Nat.add_zero]
    exact Nat.not_lt.mpr h4
  rw [DiskPager.get_page_uncached p pageNum malloc hnb h2, if_neg hnf]
  exact ⟨rfl, if_pos rfl, rfl, rfl⟩

theorem c5_fresh_page_is_malloc_contents_witness :
    ((0 : Nat) < TABLE_MAX_PAGES ∧ DiskPager.pagerEmpty.pages 0 = none ∧
      DiskPager.pagerEmpty.fileLength % PAGE_SIZE = 0 ∧
      DiskPager.pagerEmpty.fileLength / PAGE_SIZE ≤ 0) ∧
    ExceptOk (DiskPager.get_page DiskPager.pagerEmpty 0 DiskPager.oneFn)
      (DiskPager.c5Post DiskPager.pagerEmpty 0 DiskPager.oneFn) :=
  ⟨⟨by decide, rfl, rfl, by decide⟩,
    c5_fresh_page_is_malloc_contents DiskPager.pagerEmpty 0 DiskPager.oneFn
      (by decide) rfl rfl (by decide)⟩

/-- C6 counterexample: pager_open over a two page file yields the watermark
    2 with an empty cache; get_page of page 0 materializes page 0, yet the
    next unused page number is 2, not 0 + 1, because materializing a page
    below the watermark does not move it. -/
theorem c6_unused_page_num_counterexample :
    DiskPager.pager_open (2 * PAGE_SIZE) DiskPager.zeroFn =
      .ok DiskPager.pagerTwo ∧
    ExceptOk (DiskPager.get_page DiskPager.pagerTwo 0 DiskPager.zeroFn)
      DiskPager.c6cexPost :=
  ⟨rfl, by decide⟩

/-- C6 amended: get_unused_page_num returns the page count watermark, a pure
    read, so with no intervening operation a second call returns the same
    value; a get_page of any page number below the watermark leaves the next
    unused page number unchanged, whether it materializes the page or not;
    and a get_page of a page number at or beyond the watermark, in
    particular of the number just returned by get_unused_page_num on a pager
    satisfying the cache invariant, makes the next call return that number
    plus one. -/
theorem c6_unused_page_num_watermark (p : DiskPager.Pager)
    (hinv : DiskPager.cacheInvariant p) :
    (∀ m malloc res, m < p.numPages →
      DiskPager.get_page p m malloc = .ok res →
      DiskPager.get_unused_page_num res.2 = DiskPager.get_unused_page_num p) ∧
    (∀ n malloc res, p.numPages ≤ n →
      DiskPager.get_page p n malloc = .ok res →
      DiskPager.get_unused_page_num res.2 = n + 1) := by
  constructor
  · intro m malloc res hm h
    by_cases hb : TABLE_MAX_PAGES ≤ m
    · rw [DiskPager.get_page, if_pos hb] at h
      exact Except.noConfusion h
    · rcases hpm : p.pages m with _ | pg
      · have hres : res = _ := Except.ok.inj
          (h.symm.trans (DiskPager.get_page_uncached p m malloc hb hpm))
        rw [hres]
        show (if p.numPages ≤ m then m + 1 else p.numPages) = p.numPages
        rw [if_neg (Nat.not_le_of_lt hm)]
      · have hres : res = (pg, p) := Except.ok.inj
          (h.symm.trans (DiskPager.get_page_hit p m pg malloc hb hpm))
        rw [hres]
  · intro n malloc res hn h
    by_cases hb : TABLE_MAX_PAGES ≤ n
    · rw [DiskPager.get_page, if_pos hb] at h
      exact Except.noConfusion h
    · have hres : res = _ := Except.ok.inj
        (h.symm.trans (DiskPager.get_page_uncached p n malloc hb (hinv n hn)))
      rw [hres]
      show (if p.numPages ≤ n then n + 1 else p.numPages) = n + 1
      rw [if_pos hn]

theorem c6_unused_page_num_watermark_witness :
    ExceptOk (DiskPager.get_page DiskPager.pagerTwo 2 DiskPager.zeroFn)
      DiskPager.c6wPost := by
  have h := (c6_unused_page_num_watermark DiskPager.pagerTwo
    (fun _ _ => rfl)).2 2 DiskPager.zeroFn
  exact h _ (by decide) rfl

lemma diskGetPage_inv_step (p : DiskPager.Pager) (n : Nat) (malloc : Nat → Nat)
    (hinv : DiskPager.cacheInvariant p) (hn : n < TABLE_MAX_PAGES) :
    ExceptOk (DiskPager.get_page p n malloc)
      (fun res => DiskPager.cacheInvariant res.2) := by
  rcases hpn : p.pages n with _ | pg
  · rw [DiskPager.get_page_uncached p n malloc (Nat.not_le_of_lt hn) hpn]
    show DiskPager.cacheInvariant _
    intro j hj
    show (if j = n then _ else p.pages j) = none
    by_cases hb : p.numPages ≤ n
    · have hj2 : n + 1 ≤ j := by simpa only [if_pos hb] using hj
      rw [if_neg (Nat.ne_of_gt (Nat.lt_of_succ_le hj2))]
      exact hinv j (Nat.le_trans hb (Nat.le_of_succ_le hj2))
    · have hj2 : p.numPages ≤ j := by
        simpa only [if_neg hb] using hj
      have hjn : j ≠ n := fun hcontra => hb (hcontra ▸ hj2)
      rw [if_neg hjn]
      exact hinv j hj2
  · rw [DiskPager.get_page_hit p n pg malloc (Nat.not_le_of_lt hn) hpn]
    exact hinv

lemma runGets_inv (ops : List (Nat × (Nat → Nat))) :
    ∀ p : DiskPager.Pager, DiskPager.cacheInvariant p →
    (∀ op ∈ ops, op.1 < TABLE_MAX_PAGES) →
    ExceptOk (DiskPager.runGets p ops) DiskPager.cacheInvariant := by
  induction ops with
  | nil =>
    intro p hinv _
    exact hinv
  | cons op rest ih =>
    intro p hinv hops
    obtain ⟨n, m⟩ := op
    have hstep := diskGetPage_inv_step p n m hinv (hops (n, m) (by simp))
    rw [DiskPager.runGets]
    rcases h : DiskPager.get_page p n m with e | res
    · rw [h] at hstep
      exact hstep
    · rw [h] at hstep
      exact ih res.2 hstep (fun op2 hop2 => hops op2 (by simp [hop2]))

/-- C10: from pager_open on a whole number of pages file, any sequence of in
    bounds get_page calls preserves the cache invariant: every slot at or
    beyond the page count watermark is empty; consequently the slot of the
    page number returned by get_unused_page_num is always uncached, so the
    page allocations of leaf_node_split_and_insert and create_new_root never
    alias an already cached page. -/
theorem c10_cache_invariant (fl : Nat) (file : Nat → Nat)
    (ops : List (Nat × (Nat → Nat)))
    (h1 : fl % PAGE_SIZE = 0)
    (h2 : ∀ op ∈ ops, op.1 < TABLE_MAX_PAGES) :
    ExceptOk (DiskPager.openAndRun fl file ops) DiskPager.c10Good := by
  rw [DiskPager.openAndRun, DiskPager.pager_open, if_neg (by simp [h1])]
  show ExceptOk (DiskPager.runGets _ ops) DiskPager.c10Good
  refine exceptOk_imp _ _ _ (runGets_inv ops _ (fun _ _ => rfl) h2) ?_
  intro p1 hinv
  exact ⟨hinv, hinv _ (le_refl _)⟩

theorem c10_cache_invariant_witness :
    ((0 : Nat) % PAGE_SIZE = 0 ∧
      ∀ op ∈ DiskPager.c10wOps, op.1 < TABLE_MAX_PAGES) ∧
    ExceptOk (DiskPager.openAndRun 0 DiskPager.zeroFn DiskPager.c10wOps)
      DiskPager.c10Good :=
  ⟨⟨rfl, by decide⟩,
    c10_cache_invariant 0 DiskPager.zeroFn DiskPager.c10wOps rfl (by decide)⟩

lemma except_bind_ok {α β : Type} (a : α) (f : α → Except DbError β) :
    (Except.ok a >>= f) = f a := rfl

lemma setPage_pages_self (t : Table) (n : Nat) (nd : Node) :
    (setPage t n nd).pages n = some nd := by
  simp [setPage]

lemma setPage_pages_ne (t : Table) (n : Nat) (nd : Node) (m : Nat)
    (h : m ≠ n) : (setPage t n nd).pages m = t.pages m := by
  simp [setPage, h]

lemma nodeAtD_setPage_self (t : Table) (n : Nat) (nd : Node) :
    nodeAtD (setPage t n nd) n = nd := by
  rw [nodeAtD, setPage_pages_self]
  rfl

lemma c4_bundle (Y : Table) (rootn leftNum rcp mk2 : Nat) (rootNode : Node)
    (hne : leftNum ≠ rootn) :
    (setPage (setPage Y leftNum (set_node_root rootNode false)) rootn
        (internal_node_set_right_child
          (internal_node_set_key
            (Node.internal true 1 0 (fun j => if j = 0 then (leftNum, 0) else (0, 0)))
            0 mk2) rcp)).pages leftNum = some (set_node_root rootNode false) ∧
    get_node_type (nodeAtD
        (setPage (setPage Y leftNum (set_node_root rootNode false)) rootn
          (internal_node_set_right_child
            (internal_node_set_key
              (Node.internal true 1 0 (fun j => if j = 0 then (leftNum, 0) else (0, 0)))
              0 mk2) rcp)) rootn) = NodeType.internal ∧
    is_node_root (nodeAtD
        (setPage (setPage Y leftNum (set_node_root rootNode false)) rootn
          (internal_node_set_right_child
            (internal_node_set_key
              (Node.internal true 1 0 (fun j => if j = 0 then (leftNum, 0) else (0, 0)))
              0 mk2) rcp)) rootn) = true ∧
    internal_node_num_keys (nodeAtD
        (setPage (setPage Y leftNum (set_node_root rootNode false)) rootn
          (internal_node_set_right_child
            (internal_node_set_key
              (Node.internal true 1 0 (fun j => if j = 0 then (leftNum, 0) else (0, 0)))
              0 mk2) rcp)) rootn) = 1 ∧
    internal_node_child (nodeAtD
        (setPage (setPage Y leftNum (set_node_root rootNode false)) rootn
          (internal_node_set_right_child
            (internal_node_set_key
              (Node.internal true 1 0 (fun j => if j = 0 then (leftNum, 0) else (0, 0)))
              0 mk2) rcp)) rootn) 0 = .ok leftNum ∧
    internal_node_key_val (nodeAtD
        (setPage (setPage Y leftNum (set_node_root rootNode false)) rootn
          (internal_node_set_right_child
            (internal_node_set_key
              (Node.internal true 1 0 (fun j => if j = 0 then (leftNum, 0) else (0, 0)))
              0 mk2) rcp)) rootn) 0 = mk2 ∧
    internal_node_right_child_val (nodeAtD
        (setPage (setPage Y leftNum (set_node_root rootNode false)) rootn
          (internal_node_set_right_child
            (internal_node_set_key
              (Node.internal true 1 0 (fun j => if j = 0 then (leftNum, 0) else (0, 0)))
              0 mk2) rcp)) rootn) = rcp :=
  ⟨(setPage_pages_ne _ _ _ _ hne).trans (setPage_pages_self _ _ _),
    congrArg get_node_type (nodeAtD_setPage_self _ _ _),
    congrArg is_node_root (nodeAtD_setPage_self _ _ _),
    congrArg internal_node_num_keys (nodeAtD_setPage_self _ _ _),
    congrArg (fun nd => internal_node_child nd 0) (nodeAtD_setPage_self _ _ _),
    congrArg (fun nd => internal_node_key_val nd 0) (nodeAtD_setPage_self _ _ _),
    congrArg internal_node_right_child_val (nodeAtD_setPage_self _ _ _)⟩

/-- C4: for every table whose root page holds a node with at least one entry
    and whose pager state satisfies the watermark invariant, create_new_root
    leaves the root page number unchanged, copies the whole old root page
    into a newly allocated, previously uncached left child page with the
    root flag cleared, and rewrites the root page in place as an internal
    node with root flag true, key count 1, child 0 the left child page
    number, sole key the maximum key of the left child, and right child
    pointer the given page number. -/
theorem c4_create_new_root_correct (t : Table) (rightChildPageNum : Nat)
    (rootNode : Node)
    (hpage : t.pages t.rootPageNum = some rootNode)
    (hentry : 1 ≤ leaf_node_num_cells rootNode)
    (hrootlt : t.rootPageNum < t.numPages)
    (hnp : t.numPages < TABLE_MAX_PAGES)
    (hrc : rightChildPageNum + 1 < TABLE_MAX_PAGES)
    (hinv : ∀ m, t.numPages ≤ m → t.pages m = none) :
    ExceptOk (create_new_root t rightChildPageNum)
      (c4Post t rightChildPageNum rootNode) := by
  have hb1 : t.rootPageNum < TABLE_MAX_PAGES := Nat.lt_trans hrootlt hnp
  rw [create_new_root, get_page_cached t t.rootPageNum rootNode hb1 hpage,
    except_bind_ok]
  dsimp only
  rcases hr : t.pages rightChildPageNum with _ | rnode
  · -- right child not cached: it is materialized first and may raise the
    -- watermark before the left child page number is drawn
    rw [get_page_fresh t rightChildPageNum
      (Nat.not_le.mpr (Nat.lt_of_succ_lt hrc)) hr, except_bind_ok]
    dsimp only
    by_cases hcase : t.numPages ≤ rightChildPageNum
    · rw [if_pos hcase]
      have hpp1 : (if rightChildPageNum + 1 = rightChildPageNum then
          some (Node.leaf false 0 (fun _ => List.replicate LEAF_NODE_CELL_SIZE 0))
          else t.pages (rightChildPageNum + 1)) = none := by
        rw [if_neg (Nat.succ_ne_self rightChildPageNum)]
        exact hinv (rightChildPageNum + 1) (Nat.le_succ_of_le hcase)
      dsimp only [get_unused_page_num]
      rw [get_page_fresh
        { t with
          pages := fun m => if m = rightChildPageNum then
              some (Node.leaf false 0 (fun _ => List.replicate LEAF_NODE_CELL_SIZE 0))
            else t.pages m,
          numPages := rightChildPageNum + 1 }
        (rightChildPageNum + 1) (Nat.not_le.mpr hrc) hpp1, except_bind_ok]
      dsimp only
      exact ⟨rfl, rightChildPageNum + 1,
        hinv (rightChildPageNum + 1) (Nat.le_succ_of_le hcase),
        c4_bundle _ t.rootPageNum (rightChildPageNum + 1) rightChildPageNum
          (get_node_max_key (set_node_root rootNode false)) rootNode
          (Nat.ne_of_gt (Nat.lt_succ_of_lt
            (Nat.lt_of_lt_of_le hrootlt hcase)))⟩
    · rw [if_neg hcase]
      have hpp2 : (if t.numPages = rightChildPageNum then
          some (Node.leaf false 0 (fun _ => List.replicate LEAF_NODE_CELL_SIZE 0))
          else t.pages t.numPages) = none := by
        rw [if_neg (Nat.ne_of_gt (Nat.lt_of_not_le hcase))]
        exact hinv t.numPages (Nat.le_refl _)
      dsimp only [get_unused_page_num]
      rw [get_page_fresh
        { t with
          pages := fun m => if m = rightChildPageNum then
              some (Node.leaf false 0 (fun _ => List.replicate LEAF_NODE_CELL_SIZE 0))
            else t.pages m,
          numPages := t.numPages }
        t.numPages (Nat.not_le.mpr hnp) hpp2, except_bind_ok]
      dsimp only
      exact ⟨rfl, t.numPages, hinv t.numPages (Nat.le_refl _),
        c4_bundle _ t.rootPageNum t.numPages rightChildPageNum
          (get_node_max_key (set_node_root rootNode false)) rootNode
          (Nat.ne_of_gt hrootlt)⟩
  · -- right child cached: the table is unchanged by its fetch
    rw [get_page_cached t rightChildPageNum rnode (Nat.lt_of_succ_lt hrc) hr,
      except_bind_ok]
    dsimp only
    rw [get_page_fresh t (get_unused_page_num t)
      (Nat.not_le_of_lt hnp : ¬ TABLE_MAX_PAGES ≤ get_unused_page_num t)
      (hinv (get_unused_page_num t) (Nat.le_refl _)), except_bind_ok]
    dsimp only
    exact ⟨rfl, get_unused_page_num t, hinv _ (Nat.le_refl _),
      c4_bundle _ t.rootPageNum (get_unused_page_num t) rightChildPageNum
        (get_node_max_key (set_node_root rootNode false)) rootNode
        (Nat.ne_of_gt hrootlt : get_unused_page_num t ≠ t.rootPageNum)⟩


theorem c4_create_new_root_correct_witness :
    (c4wTable.pages c4wTable.rootPageNum = some c4wRoot ∧
      1 ≤ leaf_node_num_cells c4wRoot ∧
      c4wTable.rootPageNum < c4wTable.numPages ∧
      c4wTable.numPages < TABLE_MAX_PAGES ∧ (1 : Nat) + 1 < TABLE_MAX_PAGES) ∧
    ExceptOk (create_new_root c4wTable 1) (c4Post c4wTable 1 c4wRoot) :=
  ⟨⟨rfl, by decide, by decide, by decide, by decide⟩,
    c4_create_new_root_correct c4wTable 1 c4wRoot rfl (by decide) (by decide)
      (by decide) (by decide)
      (fun m hm => by
        have h1 : 1 ≤ m := hm
        show (if m = 0 then some c4wRoot else none) = none
        rw [if_neg (Nat.pos_iff_ne_zero.mp h1)])⟩

lemma shiftLoop_eq (cellNum : Nat) :
    ∀ (m : Nat) (cells : Nat → Cell) (j : Nat),
    shiftLoop cellNum cells m j =
      if cellNum < j ∧ j ≤ m then cells (j - 1) else cells j := by
  intro m
  induction m with
  | zero =>
    intro cells j
    rw [shiftLoop,
      if_neg (fun hq : cellNum < j ∧ j ≤ 0 =>
        Nat.not_lt_zero cellNum (Nat.lt_of_lt_of_le hq.1 hq.2))]
  | succ m ih =>
    intro cells j
    by_cases hc : cellNum < m + 1
    · rw [shiftLoop, if_pos hc, ih]
      by_cases h1 : cellNum < j ∧ j ≤ m
      · rw [if_pos h1,
          if_neg (Nat.ne_of_lt
            (Nat.lt_succ_of_le (Nat.le_trans (Nat.sub_le j 1) h1.2))),
          if_pos (⟨h1.1, Nat.le_succ_of_le h1.2⟩ : cellNum < j ∧ j ≤ m + 1)]
      · rw [if_neg h1]
        by_cases h2 : j = m + 1
        · subst h2
          rw [if_pos rfl, if_pos (⟨hc, Nat.le_refl (m + 1)⟩ :
            cellNum < m + 1 ∧ m + 1 ≤ m + 1)]
          rfl
        · rw [if_neg h2,
            if_neg (fun hq : cellNum < j ∧ j ≤ m + 1 =>
              h1 ⟨hq.1, Nat.lt_succ_iff.mp (Nat.lt_of_le_of_ne hq.2 h2)⟩)]
    · rw [shiftLoop, if_neg hc,
        if_neg (fun hq : cellNum < j ∧ j ≤ m + 1 =>
          hc (Nat.lt_of_lt_of_le hq.1 hq.2))]

lemma scanFrom_eot (t : Table) (cur : Cursor) (fuel : Nat)
    (h : cur.endOfTable = true) : scanFrom t cur fuel = .ok [] := by
  cases fuel with
  | zero => rfl
  | succ fuel => rw [scanFrom, if_pos h]

lemma scanFrom_run (t : Table) (r : Bool) (n : Nat) (cells : Nat → Cell)
    (pageNum : Nat) (hp : pageNum < TABLE_MAX_PAGES)
    (hpage : t.pages pageNum = some (.leaf r n cells)) :
    ∀ fuel c, c < n → n - c ≤ fuel →
    scanFrom t { pageNum := pageNum, cellNum := c, endOfTable := false } fuel =
      .ok ((List.range' c (n - c)).map fun i2 => cellKey (cells i2)) := by
  intro fuel
  induction fuel with
  | zero =>
    intro c hc hfuel
    exact absurd hc
      (Nat.not_lt.mpr (Nat.le_of_sub_eq_zero (Nat.le_zero.mp hfuel)))
  | succ fuel ih =>
    intro c hc hfuel
    rw [scanFrom, if_neg Bool.false_ne_true,
      get_page_cached t pageNum _ hp hpage, except_bind_ok]
    dsimp only [leaf_node_cells]
    rw [cursor_advance, get_page_cached t pageNum _ hp hpage, except_bind_ok]
    dsimp only [leaf_node_num_cells]
    by_cases hend : n ≤ c + 1
    · rw [if_pos hend, except_bind_ok]
      rw [scanFrom_eot t _ fuel rfl, except_bind_ok]
      have hn : n - c = 1 := by
        rw [Nat.le_antisymm hend (Nat.succ_le_of_lt hc), Nat.add_sub_cancel_left]
      rw [hn, List.range'_succ]
      rfl
    · rw [if_neg hend, except_bind_ok]
      rw [ih (c + 1) (Nat.lt_of_not_le hend) (Nat.pred_le_pred hfuel),
        except_bind_ok]
      have hn : n - c = (n - (c + 1)) + 1 :=
        (Nat.succ_pred_eq_of_pos (Nat.sub_pos_of_lt hc)).symm
      rw [hn, List.range'_succ]
      rfl

lemma scanKeys_leaf (t : Table) (r : Bool) (n : Nat) (cells : Nat → Cell)
    (hp : t.rootPageNum < TABLE_MAX_PAGES)
    (hpage : t.pages t.rootPageNum = some (.leaf r n cells)) :
    scanKeys t = .ok (keysList cells n) := by
  rw [scanKeys, table_start, get_page_cached t t.rootPageNum _ hp hpage,
    except_bind_ok]
  dsimp only [leaf_node_num_cells]
  rw [except_bind_ok]
  dsimp only
  rw [get_page_cached t t.rootPageNum _ hp hpage, except_bind_ok]
  dsimp only [leaf_node_num_cells]
  rcases Nat.eq_zero_or_pos n with hn | hn
  · subst hn
    rw [scanFrom_eot t _ _ rfl]
    rfl
  · have hbeq : (n == 0) = false := by
      rw [beq_eq_false_iff_ne]
      exact Nat.pos_iff_ne_zero.mp hn
    rw [hbeq]
    rw [scanFrom_run t r n cells t.rootPageNum hp hpage (n + 1) 0 hn
      (Nat.le_succ_of_le (Nat.sub_le n 0))]
    rw [keysList, List.range_eq_range']
    rfl

lemma map_range_split (g : Nat → Nat) (m1 m2 : Nat) :
    (List.range (m1 + m2)).map g =
      ((List.range' 0 m1).map g) ++ ((List.range' m1 m2).map g) := by
  have h := List.range'_append_1 0 m1 m2
  rw [Nat.zero_add] at h
  rw [List.range_eq_range', show m1 + m2 = m2 + m1 from Nat.add_comm m1 m2,
    ← h, List.map_append]

lemma map_range_split_at (g : Nat → Nat) (m1 m : Nat) (h : m1 ≤ m) :
    (List.range m).map g =
      ((List.range' 0 m1).map g) ++ ((List.range' m1 (m - m1)).map g) := by
  have h2 := map_range_split g m1 (m - m1)
  rwa [Nat.add_sub_cancel' h] at h2

lemma insert_once (t : Table) (k : Nat) (r : Row) (n : Nat) (cells : Nat → Cell)
    (hroot : t.rootPageNum < TABLE_MAX_PAGES)
    (hpage : t.pages t.rootPageNum = some (.leaf true n cells))
    (hn : n < LEAF_NODE_MAX_CELLS)
    (hk : k < 4294967296)
    (hsorted : ∀ i j, i < j → j < n → cellKey (cells i) < cellKey (cells j))
    (hnot : ∀ i, i < n → cellKey (cells i) ≠ k) :
    ∃ cur cells2,
      table_find t k = .ok (cur, t) ∧
      leaf_node_insert t cur k r =
        .ok (setPage t t.rootPageNum (.leaf true (n + 1) cells2)) ∧
      List.Sorted (fun a b => a < b) (keysList cells2 (n + 1)) ∧
      List.Perm (keysList cells2 (n + 1)) (k :: keysList cells n) := by
  have hfind : table_find t k =
      .ok ({ pageNum := t.rootPageNum,
             cellNum := binSearch (fun j => cellKey (cells j)) k 0 n,
             endOfTable := false }, t) := by
    rw [table_find, get_page_cached t t.rootPageNum _ hroot hpage,
      except_bind_ok]
    dsimp only [get_node_type]
    exact leaf_node_find_cached t t.rootPageNum k true n cells hroot hpage
  have hspec := binSearch_spec (fun j => cellKey (cells j)) k n hsorted
  set i := binSearch (fun j => cellKey (cells j)) k 0 n with hidef
  have hin : i ≤ n := hspec.1
  have habs := hspec.2.2 hnot
  have hlow : ∀ j, j < i → cellKey (cells j) < k := habs.1
  have hhigh : ∀ j, i ≤ j → j < n → k < cellKey (cells j) := habs.2
  set F : Nat → Cell := fun j =>
    if j = i then u32Bytes k ++ serialize_row r
    else (if i < n then shiftLoop i cells n else cells) j with hFdef
  have hFlt : ∀ j, j < i → F j = cells j := by
    intro j hj
    rw [hFdef]
    show (if j = i then _ else _) = _
    rw [if_neg (Nat.ne_of_lt hj)]
    by_cases hc : i < n
    · rw [if_pos hc, shiftLoop_eq,
        if_neg (fun hq : i < j ∧ j ≤ n => Nat.lt_asymm hj hq.1)]
    · rw [if_neg hc]
  have hFgt : ∀ j, i < j → j ≤ n → F j = cells (j - 1) := by
    intro j h1 h2
    rw [hFdef]
    show (if j = i then _ else _) = _
    rw [if_neg (Nat.ne_of_gt h1), if_pos (Nat.lt_of_lt_of_le h1 h2),
      shiftLoop_eq, if_pos (⟨h1, h2⟩ : i < j ∧ j ≤ n)]
  have hFi : cellKey (F i) = k := by
    rw [hFdef]
    show cellKey (if i = i then _ else _) = k
    rw [if_pos rfl, cellKey, bytesToU32_u32Bytes_append, Nat.mod_eq_of_lt hk]
  have htail : (List.range' (i + 1) (n - i)).map (fun j => cellKey (F j)) =
      (List.range' i (n - i)).map (fun j => cellKey (cells j)) := by
    rw [List.range'_eq_map_range (i + 1) (n - i), List.map_map,
      List.range'_eq_map_range i (n - i), List.map_map]
    apply List.map_congr_left
    intro a ha
    have ha2 : a < n - i := List.mem_range.mp ha
    have hian : i + a < n := Nat.add_lt_of_lt_sub' ha2
    show cellKey (F (i + 1 + a)) = cellKey (cells (i + a))
    rw [hFgt (i + 1 + a)
        (Nat.lt_of_lt_of_le (Nat.lt_succ_self i) (Nat.le_add_right (i + 1) a))
        (by rw [Nat.add_right_comm]; exact Nat.succ_le_of_lt hian),
      show i + 1 + a - 1 = i + a from by
        rw [Nat.add_right_comm]; exact Nat.add_sub_cancel (i + a) 1]
  have hhead : (List.range' i (n + 1 - i)).map (fun j => cellKey (F j)) =
      k :: (List.range' i (n - i)).map (fun j => cellKey (cells j)) := by
    rw [show n + 1 - i = (n - i) + 1 from Nat.succ_sub hin, List.range'_succ,
      List.map_cons, htail, hFi]
  have hFid : keysList F (n + 1) =
      ((List.range' 0 i).map fun j => cellKey (cells j)) ++
        k :: ((List.range' i (n - i)).map fun j => cellKey (cells j)) := by
    rw [keysList, map_range_split_at _ i (n + 1) (Nat.le_succ_of_le hin), hhead]
    have hlead : (List.range' 0 i).map (fun j => cellKey (F j)) =
        (List.range' 0 i).map (fun j => cellKey (cells j)) := by
      apply List.map_congr_left
      intro a ha
      obtain ⟨q, hq, haq⟩ := List.mem_range'.mp ha
      exact congrArg cellKey (hFlt a (by rw [haq, Nat.zero_add, Nat.one_mul]; exact hq))
    rw [hlead]
  have hLid : keysList cells n =
      ((List.range' 0 i).map fun j => cellKey (cells j)) ++
        ((List.range' i (n - i)).map fun j => cellKey (cells j)) := by
    rw [keysList, map_range_split_at _ i n hin]
  refine ⟨{ pageNum := t.rootPageNum, cellNum := i, endOfTable := false },
    F, hfind, ?_, ?_, ?_⟩
  · rw [leaf_node_insert, get_page_cached t t.rootPageNum _ hroot hpage,
      except_bind_ok]
    dsimp only [leaf_node_num_cells, leaf_node_cells, is_node_root]
    rw [if_neg (Nat.not_le_of_lt hn)]
  · rw [sorted_keysList_iff]
    intro a b hab hb
    have hbn : b ≤ n := Nat.lt_succ_iff.mp hb
    by_cases hbi : b < i
    · rw [congrArg cellKey (hFlt a (Nat.lt_trans hab hbi)),
        congrArg cellKey (hFlt b hbi)]
      exact hsorted a b hab (Nat.lt_of_lt_of_le hbi hin)
    · by_cases hbe : b = i
      · subst hbe
        rw [congrArg cellKey (hFlt a hab), hFi]
        exact hlow a hab
      · have hbgt : i < b :=
          Nat.lt_of_le_of_ne (Nat.le_of_not_lt hbi) (fun h => hbe h.symm)
        have hbn1 : b - 1 < n :=
          Nat.lt_of_lt_of_le
            (Nat.sub_lt (Nat.lt_of_le_of_lt (Nat.zero_le i) hbgt)
              (Nat.succ_pos 0)) hbn
        rw [congrArg cellKey (hFgt b hbgt hbn)]
        by_cases hai : a < i
        · rw [congrArg cellKey (hFlt a hai)]
          exact hsorted a (b - 1)
            (Nat.lt_of_lt_of_le hai (Nat.le_sub_one_of_lt hbgt)) hbn1
        · by_cases hae : a = i
          · subst hae
            rw [hFi]
            exact hhigh (b - 1) (Nat.le_sub_one_of_lt hbgt) hbn1
          · have hagt : i < a :=
              Nat.lt_of_le_of_ne (Nat.le_of_not_lt hai) (fun h => hae h.symm)
            rw [congrArg cellKey (hFgt a hagt
              (Nat.le_of_lt (Nat.lt_of_lt_of_le hab hbn)))]
            exact hsorted (a - 1) (b - 1)
              (Nat.sub_lt_sub_right
                (Nat.succ_le_of_lt (Nat.lt_of_le_of_lt (Nat.zero_le i) hagt))
                hab) hbn1
  · rw [hFid, hLid]
    exact List.perm_middle

lemma insertAll_spec (prs : List (Nat × Row)) :
    ∀ (t : Table) (n : Nat) (cells : Nat → Cell),
    t.rootPageNum < TABLE_MAX_PAGES →
    t.pages t.rootPageNum = some (.leaf true n cells) →
    n + prs.length ≤ LEAF_NODE_MAX_CELLS →
    List.Sorted (fun a b => a < b) (keysList cells n) →
    (∀ pr ∈ prs, pr.1 < 4294967296) →
    (keysList cells n ++ prs.map Prod.fst).Nodup →
    ExceptOk (insertAll t prs) (fun t2 =>
      t2.rootPageNum = t.rootPageNum ∧
      ∃ cells2,
        t2.pages t2.rootPageNum = some (.leaf true (n + prs.length) cells2) ∧
        List.Sorted (fun a b => a < b) (keysList cells2 (n + prs.length)) ∧
        List.Perm (keysList cells2 (n + prs.length))
          (keysList cells n ++ prs.map Prod.fst)) := by
  induction prs with
  | nil =>
    intro t n cells hroot hpage hlen hsorted hks hnodup
    refine ⟨rfl, cells, hpage, hsorted, ?_⟩
    rw [List.map_nil, List.append_nil]
    exact List.Perm.refl _
  | cons pr rest ih =>
    intro t n cells hroot hpage hlen hsorted hks hnodup
    obtain ⟨k, r⟩ := pr
    have hsorted2 : ∀ a b, a < b → b < n → cellKey (cells a) < cellKey (cells b) :=
      (sorted_keysList_iff cells n).mp hsorted
    have hk : k < 4294967296 := hks (k, r) (by simp)
    have hlen2 : n + 1 + rest.length ≤ LEAF_NODE_MAX_CELLS := by
      rw [List.length_cons] at hlen
      rw [Nat.add_right_comm]
      exact hlen
    have hknotin : ∀ a, a < n → cellKey (cells a) ≠ k := by
      intro a ha heq
      have hmem1 : cellKey (cells a) ∈ keysList cells n := by
        rw [keysList]
        exact List.mem_map.mpr ⟨a, List.mem_range.mpr ha, rfl⟩
      have hdisj := List.disjoint_of_nodup_append hnodup
      refine hdisj hmem1 ?_
      rw [heq]
      exact List.mem_map.mpr ⟨(k, r), by simp, rfl⟩
    obtain ⟨cur, cells2, hfind, hins, hsorted3, hperm3⟩ :=
      insert_once t k r n cells hroot hpage
        (Nat.le_trans (Nat.le_add_right (n + 1) rest.length) hlen2) hk
        hsorted2 hknotin
    show ExceptOk (insertAll t ((k, r) :: rest)) _
    rw [insertAll, hfind, except_bind_ok]
    dsimp only
    rw [hins, except_bind_ok]
    have hpage2 : (setPage t t.rootPageNum (.leaf true (n + 1) cells2)).pages
        (setPage t t.rootPageNum (.leaf true (n + 1) cells2)).rootPageNum =
        some (.leaf true (n + 1) cells2) :=
      setPage_pages_self t t.rootPageNum _
    have hks2 : ∀ pr2 ∈ rest, pr2.1 < 4294967296 :=
      fun pr2 h2 => hks pr2 (by simp [h2])
    have hpappend : List.Perm (keysList cells2 (n + 1) ++ rest.map Prod.fst)
        (k :: (keysList cells n ++ rest.map Prod.fst)) := by
      have h2 := List.Perm.append_right (rest.map Prod.fst) hperm3
      simpa using h2
    have hnodup2 : (keysList cells2 (n + 1) ++ rest.map Prod.fst).Nodup := by
      have h0 : (keysList cells n ++ k :: rest.map Prod.fst).Nodup := by
        simpa using hnodup
      have h1 : (k :: (keysList cells n ++ rest.map Prod.fst)).Nodup :=
        (List.perm_middle).nodup h0
      exact hpappend.symm.nodup h1
    have hrun := ih (setPage t t.rootPageNum (.leaf true (n + 1) cells2))
      (n + 1) cells2 hroot hpage2 hlen2 hsorted3 hks2 hnodup2
    refine exceptOk_imp _ _ _ hrun ?_
    rintro t3 ⟨hr3, cells3, hp3, hs3, hpm3⟩
    have hcount : n + 1 + rest.length = n + ((k, r) :: rest).length := by
      rw [List.length_cons]
      exact Nat.add_right_comm n 1 rest.length
    refine ⟨hr3, cells3, ?_, ?_, ?_⟩
    · rw [← hcount]
      exact hp3
    · rw [← hcount]
      exact hs3
    · rw [← hcount]
      refine hpm3.trans ?_
      refine hpappend.trans ?_
      rw [List.map_cons]
      exact (List.perm_middle).symm

/-- C2: inserting any sequence of distinct keys, each located with table_find
    and inserted with leaf_node_insert into the initially empty single leaf
    table, with the count within the leaf maximum, and then scanning from
    table_start with cursor_advance until end of table, yields exactly the
    keys in strictly ascending sorted order. -/
theorem c2_inserts_then_scan_sorted (prs : List (Nat × Row))
    (h1 : (prs.map Prod.fst).Nodup)
    (h2 : prs.length ≤ LEAF_NODE_MAX_CELLS)
    (h3 : ∀ pr ∈ prs, pr.1 < 4294967296) :
    ExceptOk (insertAll emptyTable prs) (c2Post prs) := by
  have hrun := insertAll_spec prs emptyTable 0
    (fun _ => List.replicate LEAF_NODE_CELL_SIZE 0) (by decide) rfl
    (by simpa using h2) (by simp [keysList]) h3 (by simpa [keysList] using h1)
  refine exceptOk_imp _ _ _ hrun ?_
  rintro t2 ⟨hr2, cells2, hp2, hs2, hpm2⟩
  have hscan := scanKeys_leaf t2 true (0 + prs.length) cells2
    (by rw [hr2]; decide) hp2
  have hperm : List.Perm (keysList cells2 (0 + prs.length)) (prs.map Prod.fst) := by
    simpa [keysList] using hpm2
  have hsle : List.Sorted (fun a b => a ≤ b) (keysList cells2 (0 + prs.length)) :=
    hs2.imp (fun h => le_of_lt h)
  have hisSorted : List.Sorted (fun a b => a ≤ b)
      (List.insertionSort (fun a b => a ≤ b) (prs.map Prod.fst)) :=
    List.sorted_insertionSort _ _
  have hisPerm := List.perm_insertionSort (fun a b => a ≤ b) (prs.map Prod.fst)
  have heq : keysList cells2 (0 + prs.length) =
      List.insertionSort (fun a b => a ≤ b) (prs.map Prod.fst) :=
    List.eq_of_perm_of_sorted (hperm.trans hisPerm.symm) hsle hisSorted
  constructor
  · rw [hscan, heq]
  · rw [← heq]
    exact hs2

theorem c2_inserts_then_scan_sorted_witness :
    ((c2WitnessPairs.map Prod.fst).Nodup ∧
      c2WitnessPairs.length ≤ LEAF_NODE_MAX_CELLS ∧
      ∀ pr ∈ c2WitnessPairs, pr.1 < 4294967296) ∧
    ExceptOk (insertAll emptyTable c2WitnessPairs) (c2Post c2WitnessPairs) :=
  ⟨⟨by decide, by decide, by decide⟩,
    c2_inserts_then_scan_sorted c2WitnessPairs (by decide) (by decide)
      (by decide)⟩
